import Mathlib

/-!
# Verification of the landmark binary codec (landmark_tools)

This file gives a shallow embedding of the Python landmark file codec from
`landmark_tools` (`landmark.py` and `convert_endian.py`) and proves the
specified properties about it.

Two models are used:

* A **byte-level model**: a `Landmark` record whose floating-point fields are
  stored as their IEEE-754 *bit patterns* (natural numbers below `2^64` /
  `2^32`).  The codec (`Landmark.save`, `Landmark.load`, `unpack_matrix`,
  `pack_matrix`) never performs floating-point arithmetic — it only moves
  bytes — so this model is exact.  Python `struct` semantics (exact-length
  `unpack`, bounds-checked `pack_into`, byte-string slicing with clamping,
  `bytearray` slice assignment that may change the length) are modelled
  faithfully.

* A **value-level model** (`LandmarkV`): record fields as exact rationals,
  used for the comparator (`eq`, `approx_equal`, `assess_equality`) and the
  derived-geometry functions, whose specified properties are about numeric
  values and tolerances.  `numpy.allclose` is modelled by its documented
  formula `|a - b| ≤ atol + rtol * |b|` evaluated in exact arithmetic,
  including numpy's broadcasting rules and its raising behaviour on
  non-broadcastable shapes.

IEEE-754 semantics needed by the byte-level comparator (`Landmark.eq`) are
captured exactly by *decoding* bit patterns into `FVal` (NaN / ±∞ / an exact
rational): decoding a pattern involves no rounding.
-/

/-! ## Byte-string primitives -/

/-- Little-endian byte encoding of `n`, exactly `w` bytes (truncating modulo
`2^(8*w)`, as `struct.pack` does for unsigned values that fit). -/
def leB : Nat → Nat → List Nat
  | 0, _ => []
  | w + 1, n => (n % 256) :: leB w (n / 256)

/-- Big-endian byte encoding of `n`, exactly `w` bytes. -/
def beB (w n : Nat) : List Nat := (leB w n).reverse

/-- Assemble a big-endian byte string into a natural number. -/
def natOfBe (l : List Nat) : Nat := l.foldl (fun a b => a * 256 + b) 0

/-- Assemble a little-endian byte string into a natural number. -/
def natOfLe (l : List Nat) : Nat := natOfBe l.reverse

theorem leB_length (w n : Nat) : (leB w n).length = w := by
  induction w generalizing n with
  | zero => rfl
  | succ k ih => simp [leB, ih]

theorem beB_length (w n : Nat) : (beB w n).length = w := by
  simp [beB, leB_length]

theorem natOfBe_append (l : List Nat) (b : Nat) :
    natOfBe (l ++ [b]) = natOfBe l * 256 + b := by
  simp [natOfBe, List.foldl_append]

theorem beB_succ (w n : Nat) :
    beB (w + 1) n = beB w (n / 256) ++ [n % 256] := by
  simp [beB, leB]

/-- Round trip: assembling the big-endian encoding recovers the value. -/
theorem natOfBe_beB (w n : Nat) (h : n < 2 ^ (8 * w)) :
    natOfBe (beB w n) = n := by
  induction w generalizing n with
  | zero =>
    simp [beB, leB, natOfBe]
    omega
  | succ k ih =>
    rw [beB_succ, natOfBe_append, ih (n / 256)]
    · omega
    · have h2 : 2 ^ (8 * (k + 1)) = 2 ^ (8 * k) * 256 := by ring
      rw [h2] at h
      omega

theorem natOfLe_cons (b : Nat) (l : List Nat) :
    natOfLe (b :: l) = natOfLe l * 256 + b := by
  simp [natOfLe, natOfBe_append]

/-- Python slice endpoint semantics: negative indices count from the end,
and endpoints are clamped to `[0, len]`. -/
def pyIdx (len : Nat) (i : Int) : Nat :=
  if i < 0 then (len - (-i).toNat) else min i.toNat len

/-- Python byte-string slicing `buf[a:b]`. -/
def pySlice (buf : List Nat) (a b : Int) : List Nat :=
  (buf.take (pyIdx buf.length b)).drop (pyIdx buf.length a)

theorem pyIdx_ofNat (len a : Nat) : pyIdx len (a : Int) = min a len := by
  unfold pyIdx
  rw [if_neg (by omega)]
  simp

theorem pySlice_nonneg (buf : List Nat) (a b : Nat) :
    pySlice buf a b = (buf.take (min b buf.length)).drop (min a buf.length) := by
  simp [pySlice, pyIdx_ofNat]

/-- The common case: slicing `[a:b]` with `0 ≤ a ≤ b ≤ len`. -/
theorem pySlice_eq (buf : List Nat) (a b : Nat) (hb : b ≤ buf.length) :
    pySlice buf (a : Int) (b : Int) = (buf.take b).drop a := by
  rcases Nat.le_total a buf.length with ha | ha
  · simp [pySlice_nonneg, Nat.min_eq_left hb, Nat.min_eq_left ha]
  · have h1 : min a buf.length = buf.length := Nat.min_eq_right ha
    simp only [pySlice_nonneg, Nat.min_eq_left hb, h1]
    have h2 : (buf.take b).length ≤ buf.length := by simp
    rw [List.drop_eq_nil_of_le h2, List.drop_eq_nil_of_le (by omega)]

theorem pySlice_length (buf : List Nat) (a b : Nat)
    (hb : b ≤ buf.length) :
    (pySlice buf (a : Int) (b : Int)).length = b - a := by
  rw [pySlice_eq buf a b hb]
  simp [Nat.min_eq_left hb]

/-- In-place overwrite of `bs` into `buf` at `off` (callers guarantee
`off + bs.length ≤ buf.length`). -/
def writeAt (buf : List Nat) (off : Nat) (bs : List Nat) : List Nat :=
  buf.take off ++ bs ++ buf.drop (off + bs.length)

theorem writeAt_length (buf : List Nat) (off : Nat) (bs : List Nat)
    (h : off + bs.length ≤ buf.length) :
    (writeAt buf off bs).length = buf.length := by
  simp [writeAt]
  omega

/-- Python's adjustment of a possibly-negative buffer offset. -/
def pyOff (len : Nat) (off : Int) : Nat :=
  if off < 0 then len - (-off).toNat else off.toNat

/-- `struct.pack_into` buffer write: Python adjusts a negative offset from the
end of the buffer, then requires the data to fit. -/
def packInto (buf : List Nat) (off : Int) (bs : List Nat) :
    Except String (List Nat) :=
  if pyOff buf.length off + bs.length ≤ buf.length then
    Except.ok (writeAt buf (pyOff buf.length off) bs)
  else Except.error "pack_into requires a buffer of sufficient size"

theorem pyOff_ofNat (len off : Nat) : pyOff len (off : Int) = off := by
  unfold pyOff
  rw [if_neg (by omega)]
  simp

theorem packInto_ofNat (buf : List Nat) (off : Nat) (bs : List Nat) :
    packInto buf (off : Int) bs =
      (if off + bs.length ≤ buf.length then Except.ok (writeAt buf off bs)
       else Except.error "pack_into requires a buffer of sufficient size") := by
  unfold packInto
  rw [pyOff_ofNat]

theorem packInto_ok (buf : List Nat) (off : Nat) (bs : List Nat)
    (h : off + bs.length ≤ buf.length) :
    packInto buf (off : Int) bs = Except.ok (writeAt buf off bs) := by
  rw [packInto_ofNat, if_pos h]

theorem packInto_err (buf : List Nat) (off : Nat) (bs : List Nat)
    (h : buf.length < off + bs.length) :
    packInto buf (off : Int) bs =
      Except.error "pack_into requires a buffer of sufficient size" := by
  rw [packInto_ofNat, if_neg (by omega)]

/-- Python `bytearray` slice assignment `buf[a:b] = repl`: the slice is
*replaced* by `repl`, which may change the length of the buffer. -/
def pySliceAssign (buf : List Nat) (a b : Nat) (repl : List Nat) : List Nat :=
  buf.take (min a buf.length) ++ repl ++ buf.drop (min b buf.length)

theorem pySliceAssign_length (buf : List Nat) (a b : Nat) (repl : List Nat)
    (hab : a ≤ b) (hb : b ≤ buf.length) :
    (pySliceAssign buf a b repl).length = buf.length - (b - a) + repl.length := by
  simp [pySliceAssign, Nat.min_eq_left (le_trans hab hb), Nat.min_eq_left hb]
  omega

/-! ## IEEE-754 decoding (exact; no rounding is involved) -/

/-- The exact content of an IEEE-754 bit pattern: NaN, a signed infinity, or a
finite value given as an exact rational. -/
inductive FVal where
  | nan : FVal
  | inf : Bool → FVal
  | fin : ℚ → FVal
  deriving DecidableEq

/-- Decode an IEEE-754 bit pattern with `eb` exponent bits and `mb` mantissa
bits (`eb = 11, mb = 52` for float64; `eb = 8, mb = 23` for float32). -/
def decodeF (eb mb n : Nat) : FVal :=
  let m := n % 2 ^ mb
  let e := n / 2 ^ mb % 2 ^ eb
  let s := n / 2 ^ (mb + eb) % 2 = 1
  if e = 2 ^ eb - 1 then
    if m = 0 then FVal.inf (!s) else FVal.nan
  else
    let mag : ℚ := mkRat ((if e = 0 then m * 2 else (2 ^ mb + m) * 2 ^ e : Nat) : Int)
      (2 ^ (2 ^ (eb - 1) - 1 + mb))
    FVal.fin (if s then -mag else mag)

/-- Decode a float64 bit pattern. -/
def decode64 (n : Nat) : FVal := decodeF 11 52 n

/-- Decode a float32 bit pattern. -/
def decode32 (n : Nat) : FVal := decodeF 8 23 n

/-- Python `==` on two decoded floats: `NaN` is unequal to everything
(including itself); `+0.0 == -0.0` holds because both decode to `0`. -/
def fvalEq : FVal → FVal → Bool
  | FVal.fin a, FVal.fin b => a == b
  | FVal.inf s, FVal.inf t => s == t
  | _, _ => false

/-- `numpy.isclose` on two decoded floats (`equal_nan=False`): for finite
values the documented formula `|a-b| <= atol + rtol*|b|`; for non-finite
values plain equality (so `inf` is close only to an equal `inf`, `NaN` to
nothing). -/
def fvalClose (rtol atol : ℚ) : FVal → FVal → Bool
  | FVal.fin a, FVal.fin b => |a - b| ≤ atol + rtol * |b|
  | FVal.inf s, FVal.inf t => s == t
  | _, _ => false

theorem fvalEq_refl (v : FVal) (h : v ≠ FVal.nan) : fvalEq v v = true := by
  cases v with
  | nan => exact absurd rfl h
  | inf s => simp [fvalEq]
  | fin q => simp [fvalEq]

theorem fvalClose_refl (rtol atol : ℚ) (hr : 0 ≤ rtol) (ha : 0 < atol)
    (v : FVal) (h : v ≠ FVal.nan) : fvalClose rtol atol v v = true := by
  cases v with
  | nan => exact absurd rfl h
  | inf s => simp [fvalClose]
  | fin q =>
    simp only [fvalClose, sub_self, abs_zero, decide_eq_true_eq]
    have : 0 ≤ rtol * |q| := mul_nonneg hr (abs_nonneg q)
    linarith

/-! ## `struct` format helpers (big-endian integers and floats) -/

/-- Decode 4 bytes (already assembled big- or little-endian into `p`) as a
signed two's-complement 32-bit integer, as `struct` format `i` does. -/
def decI32 (p : Nat) : Int :=
  if p < 2 ^ 31 then (p : Int) else (p : Int) - 2 ^ 32

/-- Encode a signed 32-bit integer big-endian; `struct.pack` raises when the
value is out of range. -/
def i32be (v : Int) : List Nat := beB 4 (v.emod (2 ^ 32)).toNat

theorem emod_two_pow_32 (v : Int) (h1 : -2 ^ 31 ≤ v) (h2 : v < 2 ^ 31) :
    v.emod (2 ^ 32) = if 0 ≤ v then v else v + 2 ^ 32 := by
  rcases le_or_lt 0 v with hv | hv
  · rw [if_pos hv]
    exact Int.emod_eq_of_lt hv (lt_trans h2 (by norm_num))
  · rw [if_neg (not_le.mpr hv)]
    have h4 : (v + 2 ^ 32 * 1).emod (2 ^ 32) = v.emod (2 ^ 32) :=
      Int.add_mul_emod_self_left v (2 ^ 32) 1
    have h5 : (0:Int) ≤ v + 2 ^ 32 := by
      have : -(2:Int) ^ 31 + 2 ^ 32 ≥ 0 := by norm_num
      linarith
    have h6 : v + 2 ^ 32 < 2 ^ 32 := by linarith
    calc v.emod (2 ^ 32) = (v + 2 ^ 32 * 1).emod (2 ^ 32) := h4.symm
      _ = v + 2 ^ 32 := by rw [mul_one]; exact Int.emod_eq_of_lt h5 h6

theorem decI32_natOfBe_i32be (v : Int) (h1 : -2 ^ 31 ≤ v) (h2 : v < 2 ^ 31) :
    decI32 (natOfBe (i32be v)) = v := by
  have p31 : ((2:Int) ^ 31) = 2147483648 := by norm_num
  have p31n : ((2:Nat) ^ 31) = 2147483648 := by norm_num
  have p32 : ((2:Int) ^ 32) = 4294967296 := by norm_num
  have pw : ((2:Nat) ^ (8 * 4)) = 4294967296 := by norm_num
  rw [p31] at h1 h2
  unfold i32be
  rw [emod_two_pow_32 v (by rw [p31]; exact h1) (by rw [p31]; exact h2), p32]
  rcases le_or_lt 0 v with hv | hv
  · rw [if_pos hv, natOfBe_beB 4 _ (by rw [pw]; omega)]
    unfold decI32
    rw [if_pos (by rw [p31n]; omega)]
    omega
  · rw [if_neg (not_le.mpr hv), natOfBe_beB 4 _ (by rw [pw]; omega)]
    unfold decI32
    rw [if_neg (by rw [p31n]; omega), p32]
    omega

/-! ## Matrix codec (`unpack_matrix` / `pack_matrix` from `landmark.py`,
`unpack_little_endian_matrix` from `convert_endian.py`)

Matrix elements are represented by their bit patterns; `'B'` elements by their
value (which coincides with the pattern). -/

/-- Element width dispatch shared by the matrix codec functions; any type
besides `'d'`, `'f'`, `'B'` raises `ValueError("Type not supported")`. -/
def b_sizeOf (t : Char) : Except String Nat :=
  if t = 'd' then Except.ok 8
  else if t = 'f' then Except.ok 4
  else if t = 'B' then Except.ok 1
  else Except.error "Type not supported"

/-- A numpy array as passed to `pack_matrix`: the source branches on whether
`mat.shape` has one or two dimensions. -/
inductive NpArr where
  | d1 : List Nat → NpArr
  | d2 : List (List Nat) → NpArr

/-- `struct.pack_into` of a single element: floats write their bit pattern in
the requested byte order; `'B'` requires `0 ≤ v ≤ 255`. -/
def encElem (t : Char) (little_endian : Bool) (v : Nat) : Except String (List Nat) :=
  if t = 'd' then Except.ok (if little_endian then leB 8 v else beB 8 v)
  else if t = 'f' then Except.ok (if little_endian then leB 4 v else beB 4 v)
  else if t = 'B' then
    if v ≤ 255 then Except.ok [v]
    else Except.error "ubyte format requires 0 <= number <= 255"
  else Except.error "Type not supported"

/-- Sequential element writes at offsets `pos, pos + w, pos + 2*w, …`, as the
loops of `pack_matrix` perform them. -/
def packSeq (enc : Nat → Except String (List Nat)) (w : Nat) :
    List Nat → List Nat → Int → Except String (List Nat)
  | [], buf, _ => Except.ok buf
  | x :: xs, buf, pos => do
    let bs ← enc x
    let buf2 ← packInto buf pos bs
    packSeq enc w xs buf2 (pos + w)

/-- `pack_matrix(type, mat, buffer, offset, little_endian)`: packs a 1-D or
2-D array into `buffer` starting at `offset`, element type `'d'`/`'f'`/`'B'`,
in the byte order selected by `little_endian` (row-major for 2-D). -/
def pack_matrix (t : Char) (mat : NpArr) (buffer : List Nat) (offset : Int)
    (little_endian : Bool := false) : Except String (List Nat) := do
  let w ← b_sizeOf t
  match mat with
  | NpArr.d1 v => packSeq (encElem t little_endian) w v buffer offset
  | NpArr.d2 m => packSeq (encElem t little_endian) w m.flatten buffer offset

/-- Read `c` consecutive elements of width `w`, assembling each element's
bytes with `asm`. -/
def readElems (asm : List Nat → Nat) (w : Nat) : Nat → List Nat → List Nat
  | 0, _ => []
  | c + 1, l => asm (l.take w) :: readElems asm w c (l.drop w)

/-- `struct.unpack` of one matrix row: requires the slice to have exactly the
format's length. -/
def unpackRow (asm : List Nat → Nat) (w c : Nat) (slice : List Nat) :
    Except String (List Nat) :=
  if slice.length = c * w then Except.ok (readElems asm w c slice)
  else Except.error "unpack requires a buffer of the right length"

/-- `unpack_matrix(type, [size0, size1], buffer, little_endian)` from
`landmark.py`: reads `size1` rows of `size0` elements.  The source computes an
endian flag from `little_endian` but then ignores it: every row is unpacked
with the hard-coded big-endian format `'>' + type*size[0]`, so the
`little_endian` argument has no effect on the result. -/
def unpack_matrix (t : Char) (size0 size1 : Int) (buffer : List Nat)
    (little_endian : Bool := false) : Except String (List (List Nat)) := do
  let b_size ← b_sizeOf t
  (List.range size1.toNat).mapM (fun (ii : Nat) =>
    unpackRow natOfBe b_size size0.toNat
      (pySlice buffer ((ii : Int) * ((b_size : Int) * size0))
        ((ii : Int) * ((b_size : Int) * size0) + (b_size : Int) * size0)))

/-- `unpack_little_endian_matrix(type, [size0, size1], buffer)` from
`convert_endian.py`: identical to `unpack_matrix` except each row is unpacked
with the hard-coded little-endian format `'<' + type*size[0]`. -/
def unpack_little_endian_matrix (t : Char) (size0 size1 : Int)
    (buffer : List Nat) : Except String (List (List Nat)) := do
  let b_size ← b_sizeOf t
  (List.range size1.toNat).mapM (fun (ii : Nat) =>
    unpackRow natOfLe b_size size0.toNat
      (pySlice buffer ((ii : Int) * ((b_size : Int) * size0))
        ((ii : Int) * ((b_size : Int) * size0) + (b_size : Int) * size0)))

/-! ## The `Landmark` record (byte-level model) -/

/-- The in-memory landmark record.  Floating-point fields are stored as IEEE
bit patterns (`anchor_col`, `anchor_row`, `resolution`, `anchor_point`,
`mapRworld` are float64 patterns; `ele` float32 patterns); `srm` holds uint8
values; `BODY`, `num_cols`, `num_rows` are the signed integers decoded from
the header. -/
structure Landmark where
  BODY : Int
  lmk_id : List Nat
  num_cols : Int
  num_rows : Int
  anchor_col : Nat
  anchor_row : Nat
  resolution : Nat
  anchor_point : List Nat
  mapRworld : List (List Nat)
  srm : List (List Nat)
  ele : List (List Nat)

/-- `struct.unpack('>iii', l)`: exactly 12 bytes, three signed big-endian
32-bit integers. -/
def unpackI32x3 (l : List Nat) : Except String (Int × Int × Int) :=
  if l.length = 12 then
    Except.ok (decI32 (natOfBe (l.take 4)), decI32 (natOfBe ((l.drop 4).take 4)),
      decI32 (natOfBe (l.drop 8)))
  else Except.error "unpack requires a buffer of 12 bytes"

/-- `struct.unpack('>ddd', l)`: exactly 24 bytes, three big-endian float64
bit patterns. -/
def unpackF64x3 (l : List Nat) : Except String (Nat × Nat × Nat) :=
  if l.length = 24 then
    Except.ok (natOfBe (l.take 8), natOfBe ((l.drop 8).take 8), natOfBe (l.drop 16))
  else Except.error "unpack requires a buffer of 24 bytes"

/-- `Landmark.__init__` (reading the canonical big-endian format), as a
function of the file's bytes. -/
def Landmark.load (file_data : List Nat) : Except String Landmark := do
  let (body, num_cols, num_rows) ← unpackI32x3 (pySlice file_data 64 76)
  let (anchor_col, anchor_row, resolution) ← unpackF64x3 (pySlice file_data 76 100)
  let (ax, ay, az) ← unpackF64x3 (pySlice file_data 100 124)
  let mapRworld ← unpack_matrix 'd' 3 3 (pySlice file_data 124 (file_data.length : Int))
  let srm ← unpack_matrix 'B' num_cols num_rows (pySlice file_data 196 (file_data.length : Int))
  let ele ← unpack_matrix 'f' num_cols num_rows
    (pySlice file_data (196 + num_cols * num_rows * 1) (file_data.length : Int))
  Except.ok ⟨body, pySlice file_data 32 64, num_cols, num_rows, anchor_col,
    anchor_row, resolution, [ax, ay, az], mapRworld, srm, ele⟩

/-- The 15-byte version signature `b"#! LVS Map v3.0"`. -/
def versionSig : List Nat := [35, 33, 32, 76, 86, 83, 32, 77, 97, 112, 32, 118, 51, 46, 48]

/-- `struct.pack` range check for format `i`. -/
def i32beChecked (v : Int) : Except String (List Nat) :=
  if -2 ^ 31 ≤ v ∧ v < 2 ^ 31 then Except.ok (i32be v)
  else Except.error "argument out of range for format i"

/-- The sequence of `struct.pack_into`/`pack_matrix` writes that `save`
performs at fixed offsets into the prepared buffer. -/
def saveBody (L : Landmark) (num_pixels : Int) (buf2 : List Nat) :
    Except String (List Nat) := do
  let bi ← i32beChecked L.BODY
  let bc ← i32beChecked L.num_cols
  let br ← i32beChecked L.num_rows
  let b3 ← packInto buf2 64 (bi ++ bc ++ br)
  let b4 ← packInto b3 76 (beB 8 L.anchor_col ++ beB 8 L.anchor_row ++ beB 8 L.resolution)
  let b5 ← pack_matrix 'd' (NpArr.d1 L.anchor_point) b4 100
  let b6 ← pack_matrix 'd' (NpArr.d2 L.mapRworld) b5 124
  let b7 ← pack_matrix 'B' (NpArr.d2 L.srm) b6 196
  let b8 ← pack_matrix 'f' (NpArr.d2 L.ele) b7 (196 + num_pixels * 1)
  Except.ok b8

/-- `Landmark.save` (writing the canonical big-endian format), returning the
bytes written to the file.  The version signature is right-padded with ASCII
`'0'` (48); the id is written by Python slice assignment (which changes the
buffer length when `lmk_id` is not exactly 32 bytes); all further fields are
written by bounds-checked `struct.pack_into` at fixed offsets. -/
def Landmark.save (L : Landmark) : Except String (List Nat) :=
  let version := versionSig ++ List.replicate (32 - versionSig.length) 48
  let num_pixels : Int := L.num_cols * L.num_rows
  let size : Int := 196 + num_pixels * 1 + num_pixels * 4
  if size < 0 then Except.error "negative count"
  else
    let buf0 := List.replicate size.toNat 0
    let buf1 := pySliceAssign buf0 0 32 version
    let buf2 := pySliceAssign buf1 32 64 L.lmk_id
    saveBody L num_pixels buf2

/-! ## Sequential-write lemmas for `save` -/

theorem writeAt_boundary (A bs : List Nat) (r : Nat) :
    writeAt (A ++ List.replicate r 0) A.length bs =
      A ++ bs ++ List.replicate (r - bs.length) 0 := by
  unfold writeAt
  rw [List.take_left, List.drop_append, List.drop_replicate]

theorem packSeq_cons (enc : Nat → Except String (List Nat)) (w x : Nat)
    (xs buf : List Nat) (pos : Int) :
    packSeq enc w (x :: xs) buf pos =
      Except.bind (enc x) (fun bs => Except.bind (packInto buf pos bs)
        (fun buf2 => packSeq enc w xs buf2 (pos + w))) := rfl

theorem packSeq_boundary (enc : Nat → Except String (List Nat))
    (encF : Nat → List Nat) (w : Nat) (items A : List Nat) (r : Nat)
    (henc : ∀ x ∈ items, enc x = Except.ok (encF x) ∧ (encF x).length = w)
    (hfit : items.length * w ≤ r) :
    packSeq enc w items (A ++ List.replicate r 0) (A.length : Int) =
      Except.ok (A ++ (items.map encF).flatten ++
        List.replicate (r - items.length * w) 0) := by
  induction items generalizing A r with
  | nil => simp [packSeq]
  | cons x xs ih =>
    obtain ⟨hx, hlen⟩ := henc x (List.mem_cons_self x xs)
    have hfit' : xs.length * w + w ≤ r := by
      rw [List.length_cons, Nat.succ_mul] at hfit
      exact hfit
    have hfits : A.length + (encF x).length ≤ (A ++ List.replicate r 0).length := by
      simp
      omega
    rw [packSeq_cons, hx]
    simp only [Except.bind]
    rw [packInto_ok _ _ _ hfits]
    simp only [Except.bind]
    rw [writeAt_boundary A _ r, hlen]
    have hcast : (A.length : Int) + (w : Int) = (((A ++ encF x).length : Nat) : Int) := by
      simp [hlen]
    have harr : A ++ encF x ++ List.replicate (r - w) 0 =
        (A ++ encF x) ++ List.replicate (r - w) 0 := by
      simp [List.append_assoc]
    rw [harr, hcast, ih (A ++ encF x) (r - w)
      (fun y hy => henc y (List.mem_cons_of_mem x hy)) (by omega)]
    congr 1
    rw [List.length_cons, Nat.succ_mul]
    have hrep : r - w - xs.length * w = r - (xs.length * w + w) := by omega
    simp [List.append_assoc, hrep]

/-! ## Record validity and the explicit byte layout of `save` -/

/-- A 2-D array of shape `(r, c)`. -/
def wellShaped (m : List (List Nat)) (r c : Nat) : Prop :=
  m.length = r ∧ ∀ row ∈ m, row.length = c

instance (m : List (List Nat)) (r c : Nat) : Decidable (wellShaped m r c) := by
  unfold wellShaped
  infer_instance

/-- Field-level invariants of a `LandmarkRecord` as laid down by the data
model: raster dimensions are non-negative `int32` values, `BODY` is `int32`,
`anchor_point` is a 3-vector, `mapRworld` is `3×3`, `srm` and `ele` are
`num_rows × num_cols` and `srm` holds 8-bit values. -/
def validFields (L : Landmark) : Prop :=
  0 ≤ L.num_cols ∧ 0 ≤ L.num_rows ∧
  -2 ^ 31 ≤ L.BODY ∧ L.BODY < 2 ^ 31 ∧ L.num_cols < 2 ^ 31 ∧ L.num_rows < 2 ^ 31 ∧
  L.anchor_point.length = 3 ∧
  wellShaped L.mapRworld 3 3 ∧
  wellShaped L.srm L.num_rows.toNat L.num_cols.toNat ∧
  (∀ row ∈ L.srm, ∀ v ∈ row, v ≤ 255) ∧
  wellShaped L.ele L.num_rows.toNat L.num_cols.toNat

instance (L : Landmark) : Decidable (validFields L) := by
  unfold validFields
  infer_instance

/-- `validFields` together with the 32-byte id required by the format. -/
def validForSave (L : Landmark) : Prop := validFields L ∧ L.lmk_id.length = 32

instance (L : Landmark) : Decidable (validForSave L) := by
  unfold validForSave
  infer_instance

/-- Number of raster pixels. -/
def numPixelsNat (L : Landmark) : Nat := L.num_cols.toNat * L.num_rows.toNat

/-- The byte string `save` produces for a valid record. -/
def Landmark.bytes (L : Landmark) : List Nat :=
  versionSig ++ List.replicate 17 48 ++ L.lmk_id ++
    (i32be L.BODY ++ i32be L.num_cols ++ i32be L.num_rows) ++
    (beB 8 L.anchor_col ++ beB 8 L.anchor_row ++ beB 8 L.resolution) ++
    (L.anchor_point.map (beB 8)).flatten ++
    (L.mapRworld.flatten.map (beB 8)).flatten ++
    L.srm.flatten ++
    (L.ele.flatten.map (beB 4)).flatten

theorem packInto_boundary (A bs : List Nat) (r : Nat) (off : Int)
    (hoff : off = (A.length : Int)) (hfit : bs.length ≤ r) :
    packInto (A ++ List.replicate r 0) off bs =
      Except.ok (A ++ bs ++ List.replicate (r - bs.length) 0) := by
  subst hoff
  rw [packInto_ok _ _ _ (by simp; omega), writeAt_boundary]

theorem packSeq_boundary' (enc : Nat → Except String (List Nat))
    (encF : Nat → List Nat) (w : Nat) (items A : List Nat) (r : Nat) (off : Int)
    (hoff : off = (A.length : Int))
    (henc : ∀ x ∈ items, enc x = Except.ok (encF x) ∧ (encF x).length = w)
    (hfit : items.length * w ≤ r) :
    packSeq enc w items (A ++ List.replicate r 0) off =
      Except.ok (A ++ (items.map encF).flatten ++
        List.replicate (r - items.length * w) 0) := by
  subst hoff
  exact packSeq_boundary enc encF w items A r henc hfit

theorem flatten_length_rows (m : List (List Nat)) (c : Nat)
    (hc : ∀ row ∈ m, row.length = c) : m.flatten.length = m.length * c := by
  induction m with
  | nil => simp
  | cons row rest ih =>
    have h1 : row.length = c := hc row (List.mem_cons_self row rest)
    have h2 := ih (fun x hx => hc x (List.mem_cons_of_mem row hx))
    simp [h1, h2, Nat.succ_mul, Nat.add_mul]
    omega

theorem flatten_length_wellShaped (m : List (List Nat)) (r c : Nat)
    (h : wellShaped m r c) : m.flatten.length = r * c := by
  obtain ⟨hr, hc⟩ := h
  rw [flatten_length_rows m c hc, hr]

theorem i32be_length (v : Int) : (i32be v).length = 4 := beB_length 4 _

theorem flatten_map_singleton (l : List Nat) :
    (l.map (fun v => [v])).flatten = l := by
  induction l with
  | nil => rfl
  | cons x xs ih => simp [ih]

theorem flatten_map_enc_length (l : List Nat) (w : Nat) (enc : Nat → List Nat)
    (hw : ∀ x, (enc x).length = w) :
    (l.map enc).flatten.length = l.length * w := by
  rw [flatten_length_rows (l.map enc) w]
  · simp
  · intro row hrow
    obtain ⟨x, _, hx⟩ := List.mem_map.mp hrow
    rw [← hx]
    exact hw x

theorem pack_matrix_d1 (v buf : List Nat) (off : Int) (le : Bool) :
    pack_matrix 'd' (NpArr.d1 v) buf off le = packSeq (encElem 'd' le) 8 v buf off := rfl

theorem pack_matrix_d2 (m : List (List Nat)) (buf : List Nat) (off : Int) (le : Bool) :
    pack_matrix 'd' (NpArr.d2 m) buf off le =
      packSeq (encElem 'd' le) 8 m.flatten buf off := rfl

theorem pack_matrix_B2 (m : List (List Nat)) (buf : List Nat) (off : Int) (le : Bool) :
    pack_matrix 'B' (NpArr.d2 m) buf off le =
      packSeq (encElem 'B' le) 1 m.flatten buf off := rfl

theorem pack_matrix_f2 (m : List (List Nat)) (buf : List Nat) (off : Int) (le : Bool) :
    pack_matrix 'f' (NpArr.d2 m) buf off le =
      packSeq (encElem 'f' le) 4 m.flatten buf off := rfl

theorem encElem_d (le : Bool) (x : Nat) :
    encElem 'd' le x = Except.ok (if le then leB 8 x else beB 8 x) := rfl

theorem encElem_f (le : Bool) (x : Nat) :
    encElem 'f' le x = Except.ok (if le then leB 4 x else beB 4 x) := rfl

theorem encElem_B (le : Bool) (x : Nat) (h : x ≤ 255) :
    encElem 'B' le x = Except.ok [x] := by
  simp [encElem, h]

theorem i32beChecked_ok (v : Int) (h1 : -2 ^ 31 ≤ v) (h2 : v < 2 ^ 31) :
    i32beChecked v = Except.ok (i32be v) := by
  unfold i32beChecked
  rw [if_pos ⟨h1, h2⟩]

theorem versionSig_length : versionSig.length = 15 := rfl

theorem pySliceAssign_rep0 (n a : Nat) (repl : List Nat) (h : a ≤ n) :
    pySliceAssign (List.replicate n 0) 0 a repl =
      repl ++ List.replicate (n - a) 0 := by
  unfold pySliceAssign
  simp [Nat.min_eq_left h, List.drop_replicate]

theorem pySliceAssign_mid (V : List Nat) (m : Nat) (repl : List Nat)
    (hV : V.length = 32) (hm : 32 ≤ m) :
    pySliceAssign (V ++ List.replicate m 0) 32 64 repl =
      V ++ repl ++ List.replicate (m - 32) 0 := by
  unfold pySliceAssign
  have hlen : (V ++ List.replicate m 0).length = 32 + m := by simp [hV]
  rw [hlen]
  have h1 : min 32 (32 + m) = 32 := by omega
  have h2 : min 64 (32 + m) = 64 := by omega
  rw [h1, h2]
  have h3 : (V ++ List.replicate m 0).take 32 = V := by
    rw [← hV, List.take_left]
  have h4 : (V ++ List.replicate m 0).drop 64 = List.replicate (m - 32) 0 := by
    have : (64 : Nat) = V.length + 32 := by omega
    rw [this, List.drop_append, List.drop_replicate]
  rw [h3, h4]

theorem ok_bind {α β : Type} (a : α) (f : α → Except String β) :
    (Except.ok a : Except String α) >>= f = f a := rfl

theorem save_explicit (L : Landmark) (hv : validFields L) (hid : L.lmk_id.length = 32) :
    Landmark.save L = Except.ok (Landmark.bytes L) := by
  obtain ⟨hc0, hr0, hb1, hb2, hc1, hr1, hap, hmw, hsw, hsv, hew⟩ := hv
  have hN : L.num_cols * L.num_rows = ((numPixelsNat L : Nat) : Int) := by
    unfold numPixelsNat
    push_cast [Int.toNat_of_nonneg hc0, Int.toNat_of_nonneg hr0]
    ring
  set N := numPixelsNat L with hNdef
  have hV : (versionSig ++ List.replicate 17 48).length = 32 := by
    simp [versionSig_length]
  have l12 : (i32be L.BODY ++ i32be L.num_cols ++ i32be L.num_rows).length = 12 := by
    simp [i32be_length]
  have l24 : (beB 8 L.anchor_col ++ beB 8 L.anchor_row ++ beB 8 L.resolution).length = 24 := by
    simp [beB_length]
  have lE4 : ((L.anchor_point.map (beB 8)).flatten).length = 24 := by
    rw [flatten_map_enc_length _ 8 _ (beB_length 8), hap]
  have lmf : L.mapRworld.flatten.length = 9 := by
    rw [flatten_length_wellShaped _ 3 3 hmw]
  have lE5 : ((L.mapRworld.flatten.map (beB 8)).flatten).length = 72 := by
    rw [flatten_map_enc_length _ 8 _ (beB_length 8), lmf]
  have lsf : L.srm.flatten.length = N := by
    rw [flatten_length_wellShaped _ _ _ hsw]
    exact Nat.mul_comm _ _
  have lef : L.ele.flatten.length = N := by
    rw [flatten_length_wellShaped _ _ _ hew]
    exact Nat.mul_comm _ _
  have hsv' : ∀ v ∈ L.srm.flatten, v ≤ 255 := by
    intro v hvm
    obtain ⟨row, hrow, hvr⟩ := List.mem_flatten.mp hvm
    exact hsv row hrow v hvr
  have htoNat : (196 + L.num_cols * L.num_rows * 1 + L.num_cols * L.num_rows * 4).toNat
      = 196 + 5 * N := by
    rw [hN]
    omega
  unfold Landmark.save
  rw [if_neg (by rw [hN]; omega)]
  unfold saveBody
  rw [i32beChecked_ok L.BODY hb1 hb2, i32beChecked_ok L.num_cols (by omega) hc1,
    i32beChecked_ok L.num_rows (by omega) hr1]
  simp only [ok_bind]
  rw [htoNat, show 32 - versionSig.length = 17 from rfl]
  rw [pySliceAssign_rep0 (196 + 5 * N) 32 _ (by omega)]
  rw [pySliceAssign_mid _ _ _ hV (by omega)]
  rw [packInto_boundary _ _ _ 64 (by simp only [List.length_append, versionSig_length, List.length_replicate, hid, i32be_length, beB_length, lE4, lE5, lsf]; push_cast) (by rw [l12]; omega)]
  simp only [ok_bind]
  rw [packInto_boundary _ _ _ 76 (by simp only [List.length_append, versionSig_length, List.length_replicate, hid, i32be_length, beB_length, lE4, lE5, lsf]; push_cast)
    (by rw [l24, l12]; omega)]
  simp only [ok_bind]
  rw [pack_matrix_d1]
  rw [packSeq_boundary' (encElem 'd' false) (beB 8) 8 _ _ _ 100
    (by simp only [List.length_append, versionSig_length, List.length_replicate, hid, i32be_length, beB_length, lE4, lE5, lsf]; push_cast)
    (fun x _ => ⟨rfl, beB_length 8 x⟩)
    (by rw [hap, l12, l24]; omega)]
  simp only [ok_bind]
  rw [pack_matrix_d2]
  rw [packSeq_boundary' (encElem 'd' false) (beB 8) 8 _ _ _ 124
    (by simp only [List.length_append, versionSig_length, List.length_replicate, hid, i32be_length, beB_length, lE4, lE5, lsf]; push_cast)
    (fun x _ => ⟨rfl, beB_length 8 x⟩)
    (by rw [lmf, l12, l24, hap]; omega)]
  simp only [ok_bind]
  rw [pack_matrix_B2]
  rw [packSeq_boundary' (encElem 'B' false) (fun v => [v]) 1 _ _ _ 196
    (by simp only [List.length_append, versionSig_length, List.length_replicate, hid, i32be_length, beB_length, lE4, lE5, lsf]; push_cast)
    (fun x hx => ⟨encElem_B false x (hsv' x hx), rfl⟩)
    (by rw [lsf, lmf, l12, l24, hap]; omega)]
  simp only [ok_bind]
  rw [flatten_map_singleton]
  rw [pack_matrix_f2]
  rw [packSeq_boundary' (encElem 'f' false) (beB 4) 4 _ _ _ (196 + L.num_cols * L.num_rows * 1)
    (by rw [hN]; simp only [List.length_append, versionSig_length, List.length_replicate, hid, i32be_length, beB_length, lE4, lE5, lsf]; push_cast; ring)
    (fun x _ => ⟨rfl, beB_length 4 x⟩)
    (by rw [lef, lsf, lmf, l12, l24, hap]; omega)]
  simp only [ok_bind]
  have hzero : 196 + 5 * N - 32 - 32 -
      (i32be L.BODY ++ i32be L.num_cols ++ i32be L.num_rows).length -
      (beB 8 L.anchor_col ++ beB 8 L.anchor_row ++ beB 8 L.resolution).length -
      L.anchor_point.length * 8 - L.mapRworld.flatten.length * 8 -
      L.srm.flatten.length * 1 - L.ele.flatten.length * 4 = 0 := by
    rw [l12, l24, hap, lmf, lsf, lef]
    omega
  rw [hzero]
  unfold Landmark.bytes
  simp [List.append_assoc]

/-! ## Unpack-side lemmas -/

theorem mapM_ok {α β : Type} (f : α → Except String β) (g : α → β) (l : List α)
    (h : ∀ x ∈ l, f x = Except.ok (g x)) :
    l.mapM f = Except.ok (l.map g) := by
  induction l with
  | nil => rfl
  | cons x xs ih =>
    rw [List.mapM_cons, h x (List.mem_cons_self x xs), ok_bind,
      ih (fun y hy => h y (List.mem_cons_of_mem x hy)), ok_bind]
    rfl

theorem readElems_take (asm : List Nat → Nat) (w c m : Nat) (l : List Nat)
    (h : c * w ≤ m) : readElems asm w c (l.take m) = readElems asm w c l := by
  induction c generalizing m l with
  | zero => simp [readElems]
  | succ k ih =>
    rw [Nat.succ_mul] at h
    unfold readElems
    congr 1
    · rw [List.take_take, Nat.min_eq_left (by omega)]
    · rw [List.drop_take]
      exact ih (m - w) (l.drop w) (by omega)

theorem map_getD_range {α : Type} (M : List α) (d : α) :
    (List.range M.length).map (fun i => M.getD i d) = M := by
  induction M with
  | nil => rfl
  | cons x xs ih =>
    rw [List.length_cons, List.range_succ_eq_map, List.map_cons, List.map_map]
    show (x :: xs).getD 0 d :: List.map ((fun i => (x :: xs).getD i d) ∘ Nat.succ)
      (List.range xs.length) = x :: xs
    rw [show ((fun i => (x :: xs).getD i d) ∘ Nat.succ) = (fun i => xs.getD i d) from rfl, ih]
    rfl

/-- Success of `unpack_matrix` on a sufficiently long buffer: it reads
`size1` rows of `size0` big-endian elements regardless of the
`little_endian` argument. -/
theorem unpack_matrix_spec (t : Char) (w : Nat) (hw : b_sizeOf t = Except.ok w)
    (c r : Nat) (buf : List Nat) (le : Bool)
    (hlen : r * (c * w) ≤ buf.length) :
    unpack_matrix t (c : Int) (r : Int) buf le =
      Except.ok ((List.range r).map (fun i =>
        readElems natOfBe w c (buf.drop (i * (c * w))))) := by
  unfold unpack_matrix
  rw [hw, ok_bind]
  have hr : ((r : Int)).toNat = r := by simp
  have hc : ((c : Int)).toNat = c := by simp
  rw [hr, hc]
  apply mapM_ok
  intro i hi
  have hilt : i < r := List.mem_range.mp hi
  have hcast : ∀ j : Nat, ((j : Int) * ((w : Int) * (c : Int))) = ((j * (w * c) : Nat) : Int) := by
    intro j
    push_cast
    ring
  have hcast2 : ((i : Int) * ((w : Int) * (c : Int)) + (w : Int) * (c : Int)) =
      (((i + 1) * (w * c) : Nat) : Int) := by
    push_cast
    ring
  rw [hcast2, hcast i]
  have hle : (i + 1) * (w * c) ≤ buf.length := by
    calc (i + 1) * (w * c) ≤ r * (w * c) := by
          apply Nat.mul_le_mul_right
          omega
      _ = r * (c * w) := by ring
      _ ≤ buf.length := hlen
  rw [pySlice_eq buf _ _ hle]
  unfold unpackRow
  rw [if_pos]
  · rw [List.drop_take]
    have harith : (i + 1) * (w * c) - i * (w * c) = c * w := by
      rw [Nat.succ_mul, Nat.mul_comm c w]
      omega
    rw [harith]
    rw [readElems_take natOfBe w c (c * w) _ (le_refl _)]
    have harith2 : i * (w * c) = i * (c * w) := by ring
    rw [harith2]
  · rw [List.length_drop, List.length_take, Nat.min_eq_left hle, Nat.succ_mul,
      Nat.mul_comm c w]
    omega

/-- Success of `unpack_little_endian_matrix` on a sufficiently long buffer:
little-endian element assembly. -/
theorem unpack_le_matrix_spec (t : Char) (w : Nat) (hw : b_sizeOf t = Except.ok w)
    (c r : Nat) (buf : List Nat)
    (hlen : r * (c * w) ≤ buf.length) :
    unpack_little_endian_matrix t (c : Int) (r : Int) buf =
      Except.ok ((List.range r).map (fun i =>
        readElems natOfLe w c (buf.drop (i * (c * w))))) := by
  unfold unpack_little_endian_matrix
  rw [hw, ok_bind]
  have hr : ((r : Int)).toNat = r := by simp
  have hc : ((c : Int)).toNat = c := by simp
  rw [hr, hc]
  apply mapM_ok
  intro i hi
  have hilt : i < r := List.mem_range.mp hi
  have hcast : ((i : Int) * ((w : Int) * (c : Int))) = ((i * (w * c) : Nat) : Int) := by
    push_cast
    ring
  have hcast2 : ((i : Int) * ((w : Int) * (c : Int)) + (w : Int) * (c : Int)) =
      (((i + 1) * (w * c) : Nat) : Int) := by
    push_cast
    ring
  rw [hcast2, hcast]
  have hle : (i + 1) * (w * c) ≤ buf.length := by
    calc (i + 1) * (w * c) ≤ r * (w * c) := by
          apply Nat.mul_le_mul_right
          omega
      _ = r * (c * w) := by ring
      _ ≤ buf.length := hlen
  rw [pySlice_eq buf _ _ hle]
  unfold unpackRow
  rw [if_pos]
  · rw [List.drop_take]
    have harith : (i + 1) * (w * c) - i * (w * c) = c * w := by
      rw [Nat.succ_mul, Nat.mul_comm c w]
      omega
    rw [harith]
    rw [readElems_take natOfLe w c (c * w) _ (le_refl _)]
    have harith2 : i * (w * c) = i * (c * w) := by ring
    rw [harith2]
  · rw [List.length_drop, List.length_take, Nat.min_eq_left hle, Nat.succ_mul,
      Nat.mul_comm c w]
    omega

theorem readElems_encRow (asm : List Nat → Nat) (enc : Nat → List Nat) (w : Nat)
    (henc : ∀ x, (enc x).length = w) (row rest : List Nat)
    (hdec : ∀ x ∈ row, asm (enc x) = x) :
    readElems asm w row.length ((row.map enc).flatten ++ rest) = row := by
  induction row generalizing rest with
  | nil => rfl
  | cons x xs ih =>
    simp only [List.map_cons, List.flatten_cons, List.length_cons, List.append_assoc]
    show asm ((enc x ++ ((xs.map enc).flatten ++ rest)).take w) ::
      readElems asm w xs.length ((enc x ++ ((xs.map enc).flatten ++ rest)).drop w) = x :: xs
    rw [List.take_left' (henc x), List.drop_left' (henc x),
      hdec x (List.mem_cons_self x xs), ih rest (fun y hy => hdec y (List.mem_cons_of_mem x hy))]

theorem drop_flatEnc (encRow : List Nat → List Nat) (M : List (List Nat))
    (rest : List Nat) (cw : Nat) (hlen : ∀ row ∈ M, (encRow row).length = cw)
    (i : Nat) (hi : i ≤ M.length) :
    ((M.map encRow).flatten ++ rest).drop (i * cw) =
      ((M.drop i).map encRow).flatten ++ rest := by
  induction i generalizing M with
  | zero => simp
  | succ k ih =>
    cases M with
    | nil => simp at hi
    | cons row Ms =>
      simp only [List.map_cons, List.flatten_cons, List.append_assoc]
      rw [show (k + 1) * cw = (encRow row).length + k * cw from by
        rw [hlen row (List.mem_cons_self row Ms)]; ring]
      rw [List.drop_append]
      have := ih Ms (fun r hr => hlen r (List.mem_cons_of_mem row hr))
        (by simp at hi; omega)
      simp only [List.append_assoc] at this
      rw [this]
      simp

theorem unpack_matrix_encoded (t : Char) (w : Nat) (hw : b_sizeOf t = Except.ok w)
    (enc : Nat → List Nat) (henc : ∀ x, (enc x).length = w)
    (c : Nat) (M : List (List Nat)) (rest : List Nat) (le : Bool)
    (hrow : ∀ row ∈ M, row.length = c)
    (hdec : ∀ row ∈ M, ∀ x ∈ row, natOfBe (enc x) = x) :
    unpack_matrix t (c : Int) ((M.length : Nat) : Int)
      ((M.map (fun row => (row.map enc).flatten)).flatten ++ rest) le =
      Except.ok M := by
  have hrl : ∀ row ∈ M, ((row.map enc).flatten).length = c * w := by
    intro row hr
    rw [flatten_map_enc_length row w enc henc, hrow row hr]
  have hblen : ((M.map (fun row => (row.map enc).flatten)).flatten).length
      = M.length * (c * w) := by
    rw [flatten_length_rows _ (c * w)]
    · simp
    · intro r hr
      obtain ⟨row, hrow2, hx⟩ := List.mem_map.mp hr
      rw [← hx]
      exact hrl row hrow2
  rw [unpack_matrix_spec t w hw c M.length _ le (by simp [hblen])]
  congr 1
  have hpt : ∀ i ∈ List.range M.length,
      readElems natOfBe w c
        (((M.map (fun row => (row.map enc).flatten)).flatten ++ rest).drop (i * (c * w)))
      = M.getD i [] := by
    intro i hi
    have hilt : i < M.length := List.mem_range.mp hi
    rw [drop_flatEnc _ M rest (c * w) hrl i (le_of_lt hilt)]
    rw [List.drop_eq_getElem_cons hilt]
    simp only [List.map_cons, List.flatten_cons, List.append_assoc]
    have hc : c = (M[i]).length := (hrow _ (List.getElem_mem hilt)).symm
    rw [hc, readElems_encRow natOfBe enc w henc _ _
      (fun x hx => hdec _ (List.getElem_mem hilt) x hx)]
    rw [List.getD_eq_getElem M [] hilt]
  rw [List.map_congr_left hpt]
  exact map_getD_range M []

/-! ## `load` inverts `save` -/

/-- Bit patterns of the floating-point fields fit their width. -/
def patternsBounded (L : Landmark) : Prop :=
  L.anchor_col < 2 ^ 64 ∧ L.anchor_row < 2 ^ 64 ∧ L.resolution < 2 ^ 64 ∧
  (∀ v ∈ L.anchor_point, v < 2 ^ 64) ∧
  (∀ row ∈ L.mapRworld, ∀ v ∈ row, v < 2 ^ 64) ∧
  (∀ row ∈ L.ele, ∀ v ∈ row, v < 2 ^ 32)

instance (L : Landmark) : Decidable (patternsBounded L) := by
  unfold patternsBounded
  infer_instance

theorem natOfBe_singleton (v : Nat) : natOfBe [v] = v := by
  simp [natOfBe]

theorem flatEnc_nested (M : List (List Nat)) (enc : Nat → List Nat) :
    (M.map (fun row => (row.map enc).flatten)).flatten =
      (M.flatten.map enc).flatten := by
  induction M with
  | nil => rfl
  | cons row Ms ih => simp [ih]

theorem slice_seg (X mid rest : List Nat) (a b : Int)
    (ha : a = (X.length : Int)) (hb : b = ((X.length + mid.length : Nat) : Int)) :
    pySlice (X ++ mid ++ rest) a b = mid := by
  subst ha hb
  rw [pySlice_eq _ X.length (X.length + mid.length) (by simp)]
  have h1 : (X ++ mid).length = X.length + mid.length := by simp
  rw [List.take_left' h1, List.drop_left]

theorem slice_suffix (X rest : List Nat) (a : Int)
    (ha : a = (X.length : Int)) :
    pySlice (X ++ rest) a (((X ++ rest).length : Nat) : Int) = rest := by
  subst ha
  rw [pySlice_eq _ X.length (X ++ rest).length (le_refl _), List.take_length,
    List.drop_left]

theorem load_bytes (L : Landmark) (hv : validFields L) (hid : L.lmk_id.length = 32)
    (hpb : patternsBounded L) :
    Landmark.load (Landmark.bytes L) = Except.ok L := by
  obtain ⟨hc0, hr0, hb1, hb2, hc1, hr1, hap, hmw, hsw, hsv, hew⟩ := hv
  obtain ⟨pac, par, pres, pap, pmr, pele⟩ := hpb
  obtain ⟨a0, a1, a2, hapEq⟩ := List.length_eq_three.mp hap
  have hN : L.num_cols * L.num_rows = ((numPixelsNat L : Nat) : Int) := by
    unfold numPixelsNat
    push_cast [Int.toNat_of_nonneg hc0, Int.toNat_of_nonneg hr0]
    ring
  set N := numPixelsNat L with hNdef
  have hd64 : ∀ x : Nat, x < 2 ^ 64 → natOfBe (beB 8 x) = x := by
    intro x hx
    apply natOfBe_beB
    rw [show (2:Nat) ^ (8 * 8) = 2 ^ 64 from by norm_num]
    exact hx
  have hd32 : ∀ x : Nat, x < 2 ^ 32 → natOfBe (beB 4 x) = x := by
    intro x hx
    apply natOfBe_beB
    rw [show (2:Nat) ^ (8 * 4) = 2 ^ 32 from by norm_num]
    exact hx
  have l12 : (i32be L.BODY ++ i32be L.num_cols ++ i32be L.num_rows).length = 12 := by
    simp [i32be_length]
  have l24 : (beB 8 L.anchor_col ++ beB 8 L.anchor_row ++ beB 8 L.resolution).length = 24 := by
    simp [beB_length]
  have lE4 : ((L.anchor_point.map (beB 8)).flatten).length = 24 := by
    rw [flatten_map_enc_length _ 8 _ (beB_length 8), hap]
  have lmf : L.mapRworld.flatten.length = 9 := by
    rw [flatten_length_wellShaped _ 3 3 hmw]
  have lE5 : ((L.mapRworld.flatten.map (beB 8)).flatten).length = 72 := by
    rw [flatten_map_enc_length _ 8 _ (beB_length 8), lmf]
  have lsf : L.srm.flatten.length = N := by
    rw [flatten_length_wellShaped _ _ _ hsw]
    exact Nat.mul_comm _ _
  -- slice facts
  have s_id : pySlice (Landmark.bytes L) 32 64 = L.lmk_id := by
    rw [show Landmark.bytes L = (versionSig ++ List.replicate 17 48) ++ L.lmk_id ++
      ((i32be L.BODY ++ i32be L.num_cols ++ i32be L.num_rows) ++
        ((beB 8 L.anchor_col ++ beB 8 L.anchor_row ++ beB 8 L.resolution) ++
          ((L.anchor_point.map (beB 8)).flatten ++
            ((L.mapRworld.flatten.map (beB 8)).flatten ++
              (L.srm.flatten ++ (L.ele.flatten.map (beB 4)).flatten)))))
      from by simp [Landmark.bytes, List.append_assoc]]
    exact slice_seg _ _ _ 32 64 (by simp [versionSig_length])
      (by simp [versionSig_length, hid])
  have s_12 : pySlice (Landmark.bytes L) 64 76 =
      i32be L.BODY ++ i32be L.num_cols ++ i32be L.num_rows := by
    rw [show Landmark.bytes L = (versionSig ++ List.replicate 17 48 ++ L.lmk_id) ++
      (i32be L.BODY ++ i32be L.num_cols ++ i32be L.num_rows) ++
        ((beB 8 L.anchor_col ++ beB 8 L.anchor_row ++ beB 8 L.resolution) ++
          ((L.anchor_point.map (beB 8)).flatten ++
            ((L.mapRworld.flatten.map (beB 8)).flatten ++
              (L.srm.flatten ++ (L.ele.flatten.map (beB 4)).flatten))))
      from by simp [Landmark.bytes, List.append_assoc]]
    exact slice_seg _ _ _ 64 76 (by simp [versionSig_length, hid])
      (by simp [versionSig_length, hid, i32be_length])
  have s_24 : pySlice (Landmark.bytes L) 76 100 =
      beB 8 L.anchor_col ++ beB 8 L.anchor_row ++ beB 8 L.resolution := by
    rw [show Landmark.bytes L = (versionSig ++ List.replicate 17 48 ++ L.lmk_id ++
      (i32be L.BODY ++ i32be L.num_cols ++ i32be L.num_rows)) ++
      (beB 8 L.anchor_col ++ beB 8 L.anchor_row ++ beB 8 L.resolution) ++
        ((L.anchor_point.map (beB 8)).flatten ++
          ((L.mapRworld.flatten.map (beB 8)).flatten ++
            (L.srm.flatten ++ (L.ele.flatten.map (beB 4)).flatten)))
      from by simp [Landmark.bytes, List.append_assoc]]
    exact slice_seg _ _ _ 76 100
      (by simp [versionSig_length, hid, i32be_length])
      (by simp [versionSig_length, hid, i32be_length, beB_length])
  have s_E4 : pySlice (Landmark.bytes L) 100 124 =
      (L.anchor_point.map (beB 8)).flatten := by
    rw [show Landmark.bytes L = (versionSig ++ List.replicate 17 48 ++ L.lmk_id ++
      (i32be L.BODY ++ i32be L.num_cols ++ i32be L.num_rows) ++
      (beB 8 L.anchor_col ++ beB 8 L.anchor_row ++ beB 8 L.resolution)) ++
      (L.anchor_point.map (beB 8)).flatten ++
        ((L.mapRworld.flatten.map (beB 8)).flatten ++
          (L.srm.flatten ++ (L.ele.flatten.map (beB 4)).flatten))
      from by simp [Landmark.bytes, List.append_assoc]]
    exact slice_seg _ _ _ 100 124
      (by simp [versionSig_length, hid, i32be_length, beB_length])
      (by simp only [List.length_append, versionSig_length, List.length_replicate,
        hid, i32be_length, beB_length, lE4]; push_cast)
  have s_E5 : pySlice (Landmark.bytes L) 124 ((Landmark.bytes L).length : Int) =
      (L.mapRworld.flatten.map (beB 8)).flatten ++
        (L.srm.flatten ++ (L.ele.flatten.map (beB 4)).flatten) := by
    rw [show Landmark.bytes L = (versionSig ++ List.replicate 17 48 ++ L.lmk_id ++
      (i32be L.BODY ++ i32be L.num_cols ++ i32be L.num_rows) ++
      (beB 8 L.anchor_col ++ beB 8 L.anchor_row ++ beB 8 L.resolution) ++
      (L.anchor_point.map (beB 8)).flatten) ++
      ((L.mapRworld.flatten.map (beB 8)).flatten ++
        (L.srm.flatten ++ (L.ele.flatten.map (beB 4)).flatten))
      from by simp [Landmark.bytes, List.append_assoc]]
    exact slice_suffix _ _ 124
      (by simp only [List.length_append, versionSig_length, List.length_replicate,
        hid, i32be_length, beB_length, lE4]; push_cast)
  have s_SF : pySlice (Landmark.bytes L) 196 ((Landmark.bytes L).length : Int) =
      L.srm.flatten ++ (L.ele.flatten.map (beB 4)).flatten := by
    rw [show Landmark.bytes L = (versionSig ++ List.replicate 17 48 ++ L.lmk_id ++
      (i32be L.BODY ++ i32be L.num_cols ++ i32be L.num_rows) ++
      (beB 8 L.anchor_col ++ beB 8 L.anchor_row ++ beB 8 L.resolution) ++
      (L.anchor_point.map (beB 8)).flatten ++
      (L.mapRworld.flatten.map (beB 8)).flatten) ++
      (L.srm.flatten ++ (L.ele.flatten.map (beB 4)).flatten)
      from by simp [Landmark.bytes, List.append_assoc]]
    exact slice_suffix _ _ 196
      (by simp only [List.length_append, versionSig_length, List.length_replicate,
        hid, i32be_length, beB_length, lE4, lE5]; push_cast)
  have s_E7 : pySlice (Landmark.bytes L) (196 + L.num_cols * L.num_rows * 1)
      ((Landmark.bytes L).length : Int) = (L.ele.flatten.map (beB 4)).flatten := by
    rw [show Landmark.bytes L = (versionSig ++ List.replicate 17 48 ++ L.lmk_id ++
      (i32be L.BODY ++ i32be L.num_cols ++ i32be L.num_rows) ++
      (beB 8 L.anchor_col ++ beB 8 L.anchor_row ++ beB 8 L.resolution) ++
      (L.anchor_point.map (beB 8)).flatten ++
      (L.mapRworld.flatten.map (beB 8)).flatten ++ L.srm.flatten) ++
      (L.ele.flatten.map (beB 4)).flatten
      from by simp [Landmark.bytes, List.append_assoc]]
    apply slice_suffix
    rw [hN]
    simp only [List.length_append, versionSig_length, List.length_replicate,
      hid, i32be_length, beB_length, lE4, lE5, lsf]
    push_cast
    ring
  -- unpack facts
  have u12 : unpackI32x3 (i32be L.BODY ++ i32be L.num_cols ++ i32be L.num_rows) =
      Except.ok (L.BODY, L.num_cols, L.num_rows) := by
    unfold unpackI32x3
    rw [if_pos l12, List.append_assoc, List.take_left' (i32be_length L.BODY),
      List.drop_left' (i32be_length L.BODY),
      List.take_left' (i32be_length L.num_cols),
      ← List.append_assoc,
      List.drop_left' (by simp [i32be_length] :
        (i32be L.BODY ++ i32be L.num_cols).length = 8)]
    rw [decI32_natOfBe_i32be L.BODY hb1 hb2,
      decI32_natOfBe_i32be L.num_cols (by omega) hc1,
      decI32_natOfBe_i32be L.num_rows (by omega) hr1]
  have u24 : unpackF64x3 (beB 8 L.anchor_col ++ beB 8 L.anchor_row ++ beB 8 L.resolution) =
      Except.ok (L.anchor_col, L.anchor_row, L.resolution) := by
    unfold unpackF64x3
    rw [if_pos l24, List.append_assoc, List.take_left' (beB_length 8 L.anchor_col),
      List.drop_left' (beB_length 8 L.anchor_col),
      List.take_left' (beB_length 8 L.anchor_row),
      ← List.append_assoc,
      List.drop_left' (by simp [beB_length] :
        (beB 8 L.anchor_col ++ beB 8 L.anchor_row).length = 16)]
    rw [hd64 _ pac, hd64 _ par, hd64 _ pres]
  have uE4 : unpackF64x3 ((L.anchor_point.map (beB 8)).flatten) =
      Except.ok (a0, a1, a2) := by
    rw [hapEq] at pap ⊢
    simp only [List.map_cons, List.map_nil, List.flatten_cons, List.flatten_nil,
      List.append_nil]
    unfold unpackF64x3
    rw [if_pos (by simp [beB_length])]
    rw [List.take_left' (beB_length 8 a0), List.drop_left' (beB_length 8 a0),
      List.take_left' (beB_length 8 a1), ← List.append_assoc,
      List.drop_left' (by simp [beB_length] : (beB 8 a0 ++ beB 8 a1).length = 16)]
    rw [hd64 a0 (pap a0 (by simp)), hd64 a1 (pap a1 (by simp)),
      hd64 a2 (pap a2 (by simp))]
  have u_mR : unpack_matrix 'd' 3 3 ((L.mapRworld.flatten.map (beB 8)).flatten ++
      (L.srm.flatten ++ (L.ele.flatten.map (beB 4)).flatten)) false =
      Except.ok L.mapRworld := by
    have base := unpack_matrix_encoded 'd' 8 rfl (beB 8) (beB_length 8) 3 L.mapRworld
      (L.srm.flatten ++ (L.ele.flatten.map (beB 4)).flatten) false hmw.2
      (fun row hr x hx => hd64 x (pmr row hr x hx))
    rw [flatEnc_nested, hmw.1] at base
    exact_mod_cast base
  have u_srm : unpack_matrix 'B' L.num_cols L.num_rows
      (L.srm.flatten ++ (L.ele.flatten.map (beB 4)).flatten) false =
      Except.ok L.srm := by
    have base := unpack_matrix_encoded 'B' 1 rfl (fun v => [v]) (fun x => rfl)
      L.num_cols.toNat L.srm ((L.ele.flatten.map (beB 4)).flatten) false hsw.2
      (fun row hr x hx => natOfBe_singleton x)
    rw [show (L.srm.map (fun row => (row.map (fun v => [v])).flatten)) = L.srm from by
      rw [List.map_congr_left (fun row _ => flatten_map_singleton row)]
      exact List.map_id L.srm] at base
    rw [hsw.1] at base
    rw [Int.toNat_of_nonneg hc0, Int.toNat_of_nonneg hr0] at base
    exact base
  have u_ele : unpack_matrix 'f' L.num_cols L.num_rows
      ((L.ele.flatten.map (beB 4)).flatten) false = Except.ok L.ele := by
    have base := unpack_matrix_encoded 'f' 4 rfl (beB 4) (beB_length 4)
      L.num_cols.toNat L.ele [] false hew.2
      (fun row hr x hx => hd32 x (pele row hr x hx))
    rw [flatEnc_nested, List.append_nil, hew.1] at base
    rw [Int.toNat_of_nonneg hc0, Int.toNat_of_nonneg hr0] at base
    exact base
  -- assemble
  unfold Landmark.load
  rw [s_12, u12]
  simp only [ok_bind]
  rw [s_24, u24]
  simp only [ok_bind]
  rw [s_E4, uE4]
  simp only [ok_bind]
  rw [s_E5, u_mR]
  simp only [ok_bind]
  rw [s_SF, u_srm]
  simp only [ok_bind]
  rw [s_E7, u_ele]
  simp only [ok_bind]
  rw [s_id, ← hapEq]

/-! ## `numpy.allclose` (broadcasting, raising on incompatible shapes) -/

/-- numpy broadcast compatibility of one dimension pair. -/
def bcastOK (a b : Nat) : Bool := a == b || a == 1 || b == 1

/-- The broadcast dimension (assuming `bcastOK`). -/
def bdim (a b : Nat) : Nat := if a = 1 then b else a

/-- Broadcast-aware element access in a 2-D array (`i % length` sends a
broadcast index to row 0 of a 1-row array and is the identity otherwise). -/
def bget {α : Type} (dflt : α) (m : List (List α)) (i j : Nat) : α :=
  (m.getD (i % m.length) []).getD (j % (m.headD []).length) dflt

/-- `np.allclose` on 2-D arrays: raises (`ValueError`) when the shapes cannot
be broadcast together; otherwise checks `close` elementwise over the
broadcast shape. -/
def allclose2 {α : Type} (dflt : α) (close : α → α → Bool)
    (A B : List (List α)) : Except String Bool :=
  if bcastOK A.length B.length &&
      bcastOK (A.headD []).length (B.headD []).length then
    Except.ok ((List.range (bdim A.length B.length)).all fun i =>
      (List.range (bdim (A.headD []).length (B.headD []).length)).all fun j =>
        close (bget dflt A i j) (bget dflt B i j))
  else Except.error "operands could not be broadcast together"

/-- `np.allclose` on 1-D arrays. -/
def allclose1 {α : Type} (dflt : α) (close : α → α → Bool)
    (A B : List α) : Except String Bool :=
  if bcastOK A.length B.length then
    Except.ok ((List.range (bdim A.length B.length)).all fun i =>
      close (A.getD (i % A.length) dflt) (B.getD (i % B.length) dflt))
  else Except.error "operands could not be broadcast together"

/-- `np.isclose` on float64 bit patterns. -/
def f64close (rtol atol : ℚ) (x y : Nat) : Bool :=
  fvalClose rtol atol (decode64 x) (decode64 y)

/-- `np.isclose` on float32 bit patterns. -/
def f32close (rtol atol : ℚ) (x y : Nat) : Bool :=
  fvalClose rtol atol (decode32 x) (decode32 y)

/-- `np.isclose` on uint8 values (exact integer arithmetic). -/
def u8close (rtol atol : ℚ) (x y : Nat) : Bool :=
  decide (|(x : ℚ) - (y : ℚ)| ≤ atol + rtol * |(y : ℚ)|)

/-- Python `==` on float64 bit patterns. -/
def pyEq64 (x y : Nat) : Bool := fvalEq (decode64 x) (decode64 y)

/-! ## `Landmark.__eq__` (byte-level) -/

/-- `Landmark.__eq__`: exact comparison of `BODY`, `lmk_id`, `num_cols`,
`num_rows`, `anchor_col`, `anchor_row`, `resolution` (Python `==`, so NaN
compares unequal to itself), then `np.allclose` with default tolerances
(rtol `1e-5`, atol `1e-8`) on `anchor_point`, with `rtol=0, atol=1e-4` on
`mapRworld`, defaults on `srm` and on `ele`.  The `and`-chain
short-circuits, so later `allclose` calls (which can raise) are reached only
when all earlier comparisons succeed. -/
def Landmark.eq (a b : Landmark) : Except String Bool :=
  if a.BODY ≠ b.BODY then Except.ok false
  else if a.lmk_id ≠ b.lmk_id then Except.ok false
  else if a.num_cols ≠ b.num_cols then Except.ok false
  else if a.num_rows ≠ b.num_rows then Except.ok false
  else if ¬ pyEq64 a.anchor_col b.anchor_col then Except.ok false
  else if ¬ pyEq64 a.anchor_row b.anchor_row then Except.ok false
  else if ¬ pyEq64 a.resolution b.resolution then Except.ok false
  else do
    let c1 ← allclose1 0 (f64close (1/100000) (1/100000000)) a.anchor_point b.anchor_point
    if ¬ c1 then Except.ok false
    else do
      let c2 ← allclose2 0 (f64close 0 (1/10000)) a.mapRworld b.mapRworld
      if ¬ c2 then Except.ok false
      else do
        let c3 ← allclose2 0 (u8close (1/100000) (1/100000000)) a.srm b.srm
        if ¬ c3 then Except.ok false
        else do
          let c4 ← allclose2 0 (f32close (1/100000) (1/100000000)) a.ele b.ele
          Except.ok c4

/-- No floating-point field of the record holds a NaN pattern. -/
def noNaN (L : Landmark) : Prop :=
  decode64 L.anchor_col ≠ FVal.nan ∧ decode64 L.anchor_row ≠ FVal.nan ∧
  decode64 L.resolution ≠ FVal.nan ∧
  (∀ v ∈ L.anchor_point, decode64 v ≠ FVal.nan) ∧
  (∀ row ∈ L.mapRworld, ∀ v ∈ row, decode64 v ≠ FVal.nan) ∧
  (∀ row ∈ L.ele, ∀ v ∈ row, decode32 v ≠ FVal.nan)

instance (L : Landmark) : Decidable (noNaN L) := by
  unfold noNaN
  infer_instance

theorem bdim_self (a : Nat) : bdim a a = a := by
  unfold bdim
  split <;> omega

theorem bcastOK_self (a : Nat) : bcastOK a a = true := by
  simp [bcastOK]

theorem getD_mem_or_dflt {α : Type} (l : List α) (i : Nat) (d : α) :
    l.getD i d ∈ l ∨ l.getD i d = d := by
  by_cases h : i < l.length
  · left
    rw [List.getD_eq_getElem l d h]
    exact List.getElem_mem h
  · right
    exact List.getD_eq_default l d (by omega)

theorem bget_mem_or_dflt {α : Type} (dflt : α) (A : List (List α)) (i j : Nat) :
    (∃ row ∈ A, bget dflt A i j ∈ row) ∨ bget dflt A i j = dflt := by
  unfold bget
  rcases getD_mem_or_dflt A (i % A.length) [] with hrow | hrow
  · rcases getD_mem_or_dflt (A.getD (i % A.length) []) (j % (A.headD []).length) dflt
      with helem | helem
    · exact Or.inl ⟨A.getD (i % A.length) [], hrow, helem⟩
    · exact Or.inr helem
  · rw [hrow]
    simp

theorem allclose2_self {α : Type} (dflt : α) (close : α → α → Bool)
    (A : List (List α)) (h : ∀ i j, close (bget dflt A i j) (bget dflt A i j) = true) :
    allclose2 dflt close A A = Except.ok true := by
  unfold allclose2
  rw [if_pos (by simp [bcastOK_self])]
  congr 1
  simp only [List.all_eq_true, List.mem_range]
  intro i _ j _
  exact h i j

theorem allclose1_self {α : Type} (dflt : α) (close : α → α → Bool)
    (A : List α) (h : ∀ i, close (A.getD (i % A.length) dflt) (A.getD (i % A.length) dflt) = true) :
    allclose1 dflt close A A = Except.ok true := by
  unfold allclose1
  rw [if_pos (bcastOK_self _)]
  congr 1
  simp only [List.all_eq_true, List.mem_range]
  intro i _
  exact h i

theorem u8close_refl (rtol atol : ℚ) (hr : 0 ≤ rtol) (ha : 0 < atol) (x : Nat) :
    u8close rtol atol x x = true := by
  unfold u8close
  simp only [sub_self, abs_zero, decide_eq_true_eq]
  have h2 : 0 ≤ rtol * |(x : ℚ)| := mul_nonneg hr (abs_nonneg _)
  linarith

/-- `Landmark.__eq__` is reflexive on NaN-free records. -/
theorem eq_refl_noNaN (L : Landmark) (h : noNaN L) :
    Landmark.eq L L = Except.ok true := by
  obtain ⟨hac, har, hres, hap, hmr, hele⟩ := h
  unfold Landmark.eq
  rw [if_neg (by simp), if_neg (by simp), if_neg (by simp), if_neg (by simp)]
  rw [if_neg (by simp [pyEq64, fvalEq_refl _ hac])]
  rw [if_neg (by simp [pyEq64, fvalEq_refl _ har])]
  rw [if_neg (by simp [pyEq64, fvalEq_refl _ hres])]
  rw [allclose1_self 0 _ L.anchor_point (fun i => by
    rcases getD_mem_or_dflt L.anchor_point (i % L.anchor_point.length) 0 with hm | hm
    · exact fvalClose_refl _ _ (by norm_num) (by norm_num) _ (hap _ hm)
    · rw [hm]
      exact fvalClose_refl _ _ (by norm_num) (by norm_num) _ (by decide)), ok_bind]
  rw [if_neg (by simp)]
  rw [allclose2_self 0 _ L.mapRworld (fun i j => by
    rcases bget_mem_or_dflt 0 L.mapRworld i j with ⟨row, hrow, hm⟩ | hm
    · exact fvalClose_refl _ _ (by norm_num) (by norm_num) _ (hmr row hrow _ hm)
    · rw [hm]
      exact fvalClose_refl _ _ (by norm_num) (by norm_num) _ (by decide)), ok_bind]
  rw [if_neg (by simp)]
  rw [allclose2_self 0 _ L.srm (fun i j =>
    u8close_refl _ _ (by norm_num) (by norm_num) _), ok_bind]
  rw [if_neg (by simp)]
  rw [allclose2_self 0 _ L.ele (fun i j => by
    rcases bget_mem_or_dflt 0 L.ele i j with ⟨row, hrow, hm⟩ | hm
    · exact fvalClose_refl _ _ (by norm_num) (by norm_num) _ (hele row hrow _ hm)
    · rw [hm]
      exact fvalClose_refl _ _ (by norm_num) (by norm_num) _ (by decide)), ok_bind]

/-! ## Value-level model (`LandmarkV`): comparator and derived geometry

Here floating-point values are idealised as exact rationals; `np.allclose`
uses its documented formula with exact arithmetic.  This model serves the
comparator's tolerance properties and the derived-geometry identities, which
are about numeric values rather than bytes. -/

structure LandmarkV where
  BODY : Int
  lmk_id : List Nat
  num_cols : Int
  num_rows : Int
  anchor_col : ℚ
  anchor_row : ℚ
  resolution : ℚ
  anchor_point : List ℚ
  mapRworld : List (List ℚ)
  srm : List (List ℚ)
  ele : List (List ℚ)

/-- `np.isclose` on exact rational values. -/
def qclose (rtol atol : ℚ) (x y : ℚ) : Bool :=
  decide (|x - y| ≤ atol + rtol * |y|)

/-- `Landmark.__eq__`, value level. -/
def LandmarkV.eq (a b : LandmarkV) : Except String Bool :=
  if a.BODY ≠ b.BODY then Except.ok false
  else if a.lmk_id ≠ b.lmk_id then Except.ok false
  else if a.num_cols ≠ b.num_cols then Except.ok false
  else if a.num_rows ≠ b.num_rows then Except.ok false
  else if a.anchor_col ≠ b.anchor_col then Except.ok false
  else if a.anchor_row ≠ b.anchor_row then Except.ok false
  else if a.resolution ≠ b.resolution then Except.ok false
  else do
    let c1 ← allclose1 0 (qclose (1/100000) (1/100000000)) a.anchor_point b.anchor_point
    if ¬ c1 then Except.ok false
    else do
      let c2 ← allclose2 0 (qclose 0 (1/10000)) a.mapRworld b.mapRworld
      if ¬ c2 then Except.ok false
      else do
        let c3 ← allclose2 0 (qclose (1/100000) (1/100000000)) a.srm b.srm
        if ¬ c3 then Except.ok false
        else do
          let c4 ← allclose2 0 (qclose (1/100000) (1/100000000)) a.ele b.ele
          Except.ok c4

/-- `Landmark.approx_equal(a, b, elevation_tolerance)`: identical to `eq`
except that `ele` is compared with `rtol=0, atol=elevation_tolerance`. -/
def LandmarkV.approx_equal (a b : LandmarkV) (elevation_tolerance : ℚ) :
    Except String Bool :=
  if a.BODY ≠ b.BODY then Except.ok false
  else if a.lmk_id ≠ b.lmk_id then Except.ok false
  else if a.num_cols ≠ b.num_cols then Except.ok false
  else if a.num_rows ≠ b.num_rows then Except.ok false
  else if a.anchor_col ≠ b.anchor_col then Except.ok false
  else if a.anchor_row ≠ b.anchor_row then Except.ok false
  else if a.resolution ≠ b.resolution then Except.ok false
  else do
    let c1 ← allclose1 0 (qclose (1/100000) (1/100000000)) a.anchor_point b.anchor_point
    if ¬ c1 then Except.ok false
    else do
      let c2 ← allclose2 0 (qclose 0 (1/10000)) a.mapRworld b.mapRworld
      if ¬ c2 then Except.ok false
      else do
        let c3 ← allclose2 0 (qclose (1/100000) (1/100000000)) a.srm b.srm
        if ¬ c3 then Except.ok false
        else do
          let c4 ← allclose2 0 (qclose 0 elevation_tolerance) a.ele b.ele
          Except.ok c4

/-- `Landmark.assess_equality`: first evaluates `self == other` (which can
raise), then, when unequal, reports each differing field, evaluating every
`np.allclose` unconditionally (message text abbreviated). -/
def LandmarkV.assess_equality (a b : LandmarkV) : Except String (List String) := do
  let e ← LandmarkV.eq a b
  if e then Except.ok ["Objects are equal"]
  else do
    let m1 := if a.BODY ≠ b.BODY then ["BODY differs"] else []
    let m2 := if a.lmk_id ≠ b.lmk_id then ["lmk_id differs"] else []
    let m3 := if a.num_cols ≠ b.num_cols then ["num_cols differs"] else []
    let m4 := if a.num_rows ≠ b.num_rows then ["num_rows differs"] else []
    let m5 := if a.anchor_col ≠ b.anchor_col then ["anchor_col differs"] else []
    let m6 := if a.anchor_row ≠ b.anchor_row then ["anchor_row differs"] else []
    let m7 := if a.resolution ≠ b.resolution then ["resolution differs"] else []
    let c1 ← allclose1 0 (qclose (1/100000) (1/100000000)) a.anchor_point b.anchor_point
    let m8 := if ¬ c1 then ["anchor_point differs"] else []
    let c2 ← allclose2 0 (qclose 0 (1/10000)) a.mapRworld b.mapRworld
    let m9 := if ¬ c2 then ["mapRworld differs"] else []
    let c3 ← allclose2 0 (qclose (1/100000) (1/100000000)) a.srm b.srm
    let m10 := if ¬ c3 then ["srm differs"] else []
    let c4 ← allclose2 0 (qclose (1/100000) (1/100000000)) a.ele b.ele
    let m11 := if ¬ c4 then ["ele differs"] else []
    Except.ok (m1 ++ m2 ++ m3 ++ m4 ++ m5 ++ m6 ++ m7 ++ m8 ++ m9 ++ m10 ++ m11)

theorem qclose_refl (rtol atol : ℚ) (hr : 0 ≤ rtol) (ha : 0 < atol) (x : ℚ) :
    qclose rtol atol x x = true := by
  unfold qclose
  simp only [sub_self, abs_zero, decide_eq_true_eq]
  have h2 : 0 ≤ rtol * |x| := mul_nonneg hr (abs_nonneg _)
  linarith

/-! ## Derived legacy geometry (`save_legacy_little_endian`) -/

/-- The derived matrix `col_row2mapxy` written by the legacy export. -/
def col_row2mapxy (resolution anchor_col anchor_row : ℚ) : List (List ℚ) :=
  [[resolution, 0, -resolution * anchor_col],
   [0, -resolution, resolution * anchor_row]]

/-- The derived matrix `mapxy2col_row` written by the legacy export. -/
def mapxy2col_row (resolution anchor_col anchor_row : ℚ) : List (List ℚ) :=
  [[1 / resolution, 0, anchor_col],
   [0, -1 / resolution, anchor_row]]

/-- Apply a 2×3 affine matrix to the homogeneous vector `(u, v, 1)`. -/
def applyAffine (M : List (List ℚ)) (u v : ℚ) : ℚ × ℚ :=
  ((M.getD 0 []).getD 0 0 * u + (M.getD 0 []).getD 1 0 * v + (M.getD 0 []).getD 2 0,
   (M.getD 1 []).getD 0 0 * u + (M.getD 1 []).getD 1 0 * v + (M.getD 1 []).getD 2 0)

/-- The derived vector `map_normal_vector`: the third column of
`mapRworld`. -/
def map_normal_vector (mapRworld : List (List ℚ)) : List ℚ :=
  [(mapRworld.getD 0 []).getD 2 0,
   (mapRworld.getD 1 []).getD 2 0,
   (mapRworld.getD 2 []).getD 2 0]

/-- Dot product of two 3-vectors as `np.dot` computes it here. -/
def dot3 (u v : List ℚ) : ℚ :=
  u.getD 0 0 * v.getD 0 0 + u.getD 1 0 * v.getD 1 0 + u.getD 2 0 * v.getD 2 0

/-- The derived vector `map_plane_params = [n, -(n · anchor_point)]`. -/
def map_plane_params (mapRworld : List (List ℚ)) (anchor_point : List ℚ) :
    List ℚ :=
  map_normal_vector mapRworld ++
    [-(dot3 (map_normal_vector mapRworld) anchor_point)]

/-! ## Legacy id synthesis (`convert_endian.py`) -/

/-- Decimal digits of a natural number (most-significant first), via a fuel
argument; `natDecimalDigitsAux n n` is the full digit list for `n > 0`. -/
def natDecimalDigitsAux : Nat → Nat → List Nat
  | 0, _ => []
  | fuel + 1, n => if n = 0 then [] else natDecimalDigitsAux fuel (n / 10) ++ [n % 10]

/-- The ASCII bytes of `'{}'.format(i)` for an integer `i`. -/
def intDecimalBytes (i : Int) : List Nat :=
  if i < 0 then 45 :: (natDecimalDigitsAux i.natAbs i.natAbs).map (fun d => 48 + d)
  else if i = 0 then [48]
  else (natDecimalDigitsAux i.toNat i.toNat).map (fun d => 48 + d)

/-- The id synthesised by `LegacyLittleEndianLandmark.__init__`: the decimal
text of the stored numeric id, right-padded with ASCII `'0'` to 32 bytes. -/
def synthLegacyId (n : Int) : List Nat :=
  intDecimalBytes n ++ List.replicate (32 - (intDecimalBytes n).length) 48

theorem natDecimalDigitsAux_len (fuel n k : Nat) (h : n < 10 ^ k) :
    (natDecimalDigitsAux fuel n).length ≤ k := by
  induction fuel generalizing n k with
  | zero => simp [natDecimalDigitsAux]
  | succ f ih =>
    unfold natDecimalDigitsAux
    by_cases hn : n = 0
    · simp [hn]
    · rw [if_neg hn]
      have hk : k ≠ 0 := by
        intro hk0
        rw [hk0] at h
        simp at h
        omega
      have hdiv : n / 10 < 10 ^ (k - 1) := by
        have h10 : 10 ^ k = 10 ^ (k - 1) * 10 := by
          rw [← Nat.pow_succ]
          congr 1
          omega
        rw [h10] at h
        omega
      have := ih (n / 10) (k - 1) hdiv
      simp only [List.length_append, List.length_cons, List.length_nil]
      omega

theorem intDecimalBytes_len (i : Int) (h1 : -2 ^ 31 ≤ i) (h2 : i < 2 ^ 31) :
    (intDecimalBytes i).length ≤ 11 := by
  unfold intDecimalBytes
  by_cases hneg : i < 0
  · rw [if_pos hneg]
    have hlt : i.natAbs < 10 ^ 10 := by omega
    have := natDecimalDigitsAux_len i.natAbs i.natAbs 10 hlt
    simp only [List.length_cons, List.length_map]
    omega
  · rw [if_neg hneg]
    by_cases hz : i = 0
    · simp [hz]
    · rw [if_neg hz]
      have hlt : i.toNat < 10 ^ 10 := by omega
      have := natDecimalDigitsAux_len i.toNat i.toNat 10 hlt
      simp only [List.length_map]
      omega

/-! ## Maximum elevation difference (for the tolerance law) -/

/-- The grid of `|M[i][j] - R[i][j]|` over the shape of `M`, flattened. -/
def absDiffGrid (M R : List (List ℚ)) : List ℚ :=
  ((List.range M.length).map fun i =>
    (List.range (M.headD []).length).map fun j =>
      |(M.getD i []).getD j 0 - (R.getD i []).getD j 0|).flatten

/-- `max(|M - R|)` (0 for an empty raster). -/
def maxAbsDiff (M R : List (List ℚ)) : ℚ := (absDiffGrid M R).foldr max 0

theorem le_foldr_max (l : List ℚ) (x : ℚ) (hx : x ∈ l) : x ≤ l.foldr max 0 := by
  induction l with
  | nil => simp at hx
  | cons y ys ih =>
    rcases List.mem_cons.mp hx with h | h
    · subst h
      exact le_max_left _ _
    · exact le_trans (ih h) (le_max_right _ _)

theorem foldr_max_attained (l : List ℚ) :
    l.foldr max 0 = 0 ∨ l.foldr max 0 ∈ l := by
  induction l with
  | nil => simp
  | cons y ys ih =>
    simp only [List.foldr_cons]
    rcases max_choice y (ys.foldr max 0) with h | h <;> rw [h]
    · right
      exact List.mem_cons_self y ys
    · rcases ih with h2 | h2
      · left
        exact h2
      · right
        exact List.mem_cons_of_mem y h2

theorem headD_length_map (l : List (List ℚ)) :
    (l.map List.length).headD 0 = (l.headD []).length := by
  cases l <;> simp

/-- Membership in the difference grid. -/
theorem mem_absDiffGrid (M R : List (List ℚ)) (x : ℚ) :
    x ∈ absDiffGrid M R ↔ ∃ i < M.length, ∃ j < (M.headD []).length,
      x = |(M.getD i []).getD j 0 - (R.getD i []).getD j 0| := by
  unfold absDiffGrid
  rw [List.mem_flatten]
  constructor
  · rintro ⟨row, hrow, hx⟩
    obtain ⟨i, hi, hieq⟩ := List.mem_map.mp hrow
    rw [← hieq] at hx
    obtain ⟨j, hj, hjeq⟩ := List.mem_map.mp hx
    exact ⟨i, List.mem_range.mp hi, j, List.mem_range.mp hj, hjeq.symm⟩
  · rintro ⟨i, hi, j, hj, hx⟩
    refine ⟨(List.range (M.headD []).length).map fun j =>
      |(M.getD i []).getD j 0 - (R.getD i []).getD j 0|, ?_, ?_⟩
    · exact List.mem_map.mpr ⟨i, List.mem_range.mpr hi, rfl⟩
    · exact List.mem_map.mpr ⟨j, List.mem_range.mpr hj, hx.symm⟩

theorem allclose2_isOk {α : Type} (dflt : α) (close : α → α → Bool)
    (A B : List (List α))
    (h : (bcastOK A.length B.length &&
      bcastOK (A.headD []).length (B.headD []).length) = true) :
    ∃ v, allclose2 dflt close A B = Except.ok v := by
  unfold allclose2
  rw [if_pos h]
  exact ⟨_, rfl⟩

theorem allclose1_isOk {α : Type} (dflt : α) (close : α → α → Bool)
    (A B : List α) (h : bcastOK A.length B.length = true) :
    ∃ v, allclose1 dflt close A B = Except.ok v := by
  unfold allclose1
  rw [if_pos h]
  exact ⟨_, rfl⟩

/-- Evaluation of `np.allclose(M, R, rtol=0, atol=tol)` on equal-shape
rasters: it holds exactly when every pointwise absolute difference is at
most `tol`. -/
theorem allclose2_shape_eq (tol : ℚ) (M R : List (List ℚ))
    (hsh : R.map List.length = M.map List.length) :
    allclose2 0 (qclose 0 tol) M R =
      Except.ok (decide (∀ x ∈ absDiffGrid M R, x ≤ tol)) := by
  have hlen : R.length = M.length := by
    have := congrArg List.length hsh
    simpa using this
  have hhead : (R.headD []).length = (M.headD []).length := by
    rw [← headD_length_map, ← headD_length_map, hsh]
  unfold allclose2
  rw [hlen, hhead, if_pos (by simp [bcastOK_self])]
  congr 1
  rw [bdim_self, bdim_self]
  apply Bool.eq_iff_iff.mpr
  rw [List.all_eq_true, decide_eq_true_eq]
  constructor
  · intro hall x hx
    obtain ⟨i, hi, j, hj, hxeq⟩ := (mem_absDiffGrid M R x).mp hx
    have h1 := List.all_eq_true.mp (hall i (List.mem_range.mpr hi)) j
      (List.mem_range.mpr hj)
    unfold bget at h1
    rw [Nat.mod_eq_of_lt hi, Nat.mod_eq_of_lt hj, hlen, hhead,
      Nat.mod_eq_of_lt hi, Nat.mod_eq_of_lt hj] at h1
    unfold qclose at h1
    rw [decide_eq_true_eq] at h1
    rw [hxeq]
    calc |(M.getD i []).getD j 0 - (R.getD i []).getD j 0| ≤
        tol + 0 * |(R.getD i []).getD j 0| := h1
      _ = tol := by ring
  · intro hall i hi
    rw [List.all_eq_true]
    intro j hj
    rw [List.mem_range] at hi hj
    unfold bget
    rw [Nat.mod_eq_of_lt hi, Nat.mod_eq_of_lt hj, hlen, hhead,
      Nat.mod_eq_of_lt hi, Nat.mod_eq_of_lt hj]
    unfold qclose
    rw [decide_eq_true_eq]
    have hx := hall _ ((mem_absDiffGrid M R _).mpr ⟨i, hi, j, hj, rfl⟩)
    calc |(M.getD i []).getD j 0 - (R.getD i []).getD j 0| ≤ tol := hx
      _ = tol + 0 * |(R.getD i []).getD j 0| := by ring

/-! ## Inversion and error-path lemmas -/

theorem err_bind {α β : Type} (e : String) (f : α → Except String β) :
    (Except.error e : Except String α) >>= f = Except.error e := rfl

theorem bind_ok_inv {α β : Type} {a : Except String α} {f : α → Except String β}
    {v : β} (h : (a >>= f) = Except.ok v) :
    ∃ x, a = Except.ok x ∧ f x = Except.ok v := by
  cases a with
  | ok x => exact ⟨x, rfl, h⟩
  | error e => exact Except.noConfusion h

theorem mapM_ok_mem {α β : Type} (f : α → Except String β) (l : List α)
    (ys : List β) (h : l.mapM f = Except.ok ys) :
    ∀ x ∈ l, ∃ y, f x = Except.ok y := by
  induction l generalizing ys with
  | nil => intro x hx; exact absurd hx (List.not_mem_nil x)
  | cons z zs ih =>
    rw [List.mapM_cons] at h
    obtain ⟨y, hy, hrest⟩ := bind_ok_inv h
    obtain ⟨ys', hys', _⟩ := bind_ok_inv hrest
    intro x hx
    rcases List.mem_cons.mp hx with hxz | hxzs
    · exact ⟨y, hxz ▸ hy⟩
    · exact ih ys' hys' x hxzs

theorem unpackRow_ok_len (asm : List Nat → Nat) (w c : Nat) (slice row : List Nat)
    (h : unpackRow asm w c slice = Except.ok row) : slice.length = c * w := by
  unfold unpackRow at h
  by_cases hc : slice.length = c * w
  · exact hc
  · rw [if_neg hc] at h
    exact Except.noConfusion h

theorem unpackI32x3_ok_len (l : List Nat) (v : Int × Int × Int)
    (h : unpackI32x3 l = Except.ok v) : l.length = 12 := by
  unfold unpackI32x3 at h
  by_cases hc : l.length = 12
  · exact hc
  · rw [if_neg hc] at h
    exact Except.noConfusion h

theorem unpackF64x3_ok_len (l : List Nat) (v : Nat × Nat × Nat)
    (h : unpackF64x3 l = Except.ok v) : l.length = 24 := by
  unfold unpackF64x3 at h
  by_cases hc : l.length = 24
  · exact hc
  · rw [if_neg hc] at h
    exact Except.noConfusion h

/-- If `unpack_matrix` succeeds with non-negative `size0`, the buffer holds
all `size1` rows. -/
theorem unpack_matrix_ok_len (t : Char) (w : Nat) (hw : b_sizeOf t = Except.ok w)
    (c r : Int) (hc : 0 ≤ c) (buf : List Nat) (le : Bool) (M : List (List Nat))
    (h : unpack_matrix t c r buf le = Except.ok M) :
    r.toNat * (c.toNat * w) ≤ buf.length := by
  rcases Nat.eq_zero_or_pos r.toNat with hr | hr
  · simp [hr]
  rcases Nat.eq_zero_or_pos (c.toNat * w) with hcw | hcw
  · simp [hcw]
  unfold unpack_matrix at h
  rw [hw, ok_bind] at h
  have hmem := mapM_ok_mem _ _ _ h (r.toNat - 1) (List.mem_range.mpr (by omega))
  obtain ⟨row, hrow⟩ := hmem
  have hcast : ((r.toNat - 1 : Nat) : Int) * ((w : Int) * c) =
      (((r.toNat - 1) * (w * c.toNat) : Nat) : Int) := by
    push_cast [Int.toNat_of_nonneg hc]
    ring
  have hcast2 : ((r.toNat - 1 : Nat) : Int) * ((w : Int) * c) + (w : Int) * c =
      ((r.toNat * (w * c.toNat) : Nat) : Int) := by
    push_cast [Int.toNat_of_nonneg hc]
    have : ((r.toNat : Nat) : ℤ) = ((r.toNat - 1 : Nat) : ℤ) + 1 := by
      omega
    rw [this]
    ring
  rw [hcast2, hcast] at hrow
  have hlen := unpackRow_ok_len _ _ _ _ _ hrow
  rw [pySlice_nonneg] at hlen
  rw [List.length_drop, List.length_take] at hlen
  have hb : r.toNat * (w * c.toNat) = (r.toNat - 1) * (w * c.toNat) + w * c.toNat := by
    rw [← Nat.succ_mul]
    congr 1
    omega
  have hcw2 : 0 < w * c.toNat := by
    rw [Nat.mul_comm]
    exact hcw
  rw [Nat.mul_comm c.toNat w] at hlen
  have hfin : r.toNat * (w * c.toNat) ≤ buf.length := by omega
  calc r.toNat * (c.toNat * w) = r.toNat * (w * c.toNat) := by ring
    _ ≤ buf.length := hfin

theorem getD_take_lt (l : List Nat) (n i d : Nat) (h : i < n) :
    (l.take n).getD i d = l.getD i d := by
  by_cases hl : i < l.length
  · rw [List.getD_eq_getElem _ _ (by simp; omega), List.getD_eq_getElem _ _ hl]
    exact List.getElem_take l
  · rw [List.getD_eq_default _ _ (by simp; omega), List.getD_eq_default _ _ (by omega)]

theorem getD_replicate_lt (n i : Nat) (a d : Nat) (h : i < n) :
    (List.replicate n a).getD i d = a := by
  rw [List.getD_eq_getElem _ _ (by simp [h]), List.getElem_replicate]

/-- The total length of the canonical byte image of a valid record. -/
theorem bytes_length (L : Landmark) (hv : validFields L) (hid : L.lmk_id.length = 32) :
    (Landmark.bytes L).length = 196 + 5 * numPixelsNat L := by
  obtain ⟨hc0, hr0, _, _, _, _, hap, hmw, hsw, _, hew⟩ := hv
  have lE4 : ((L.anchor_point.map (beB 8)).flatten).length = 24 := by
    rw [flatten_map_enc_length _ 8 _ (beB_length 8), hap]
  have lmf : L.mapRworld.flatten.length = 9 := by
    rw [flatten_length_wellShaped _ 3 3 hmw]
  have lE5 : ((L.mapRworld.flatten.map (beB 8)).flatten).length = 72 := by
    rw [flatten_map_enc_length _ 8 _ (beB_length 8), lmf]
  have lsf : L.srm.flatten.length = numPixelsNat L := by
    rw [flatten_length_wellShaped _ _ _ hsw]
    exact Nat.mul_comm _ _
  have lef : L.ele.flatten.length = numPixelsNat L := by
    rw [flatten_length_wellShaped _ _ _ hew]
    exact Nat.mul_comm _ _
  have lE7 : ((L.ele.flatten.map (beB 4)).flatten).length = 4 * numPixelsNat L := by
    rw [flatten_map_enc_length _ 4 _ (beB_length 4), lef]
    ring
  simp only [Landmark.bytes, List.length_append, versionSig_length,
    List.length_replicate, hid, i32be_length, beB_length, lE4, lE5, lsf, lE7]
  omega

/-! # Claim theorems -/

/-- Concrete valid records used by witnesses. -/
def c1Rec : Landmark :=
  ⟨1, List.replicate 32 48, 1, 1, 0, 0, 4607182418800017408, [0, 0, 0],
    [[4607182418800017408, 0, 0], [0, 4607182418800017408, 0],
     [0, 0, 4607182418800017408]], [[7]], [[1065353216]]⟩

/-- `c1Rec` with `anchor_col` set to the quiet-NaN float64 pattern
`0x7FF8000000000000`. -/
def c1RecNaN : Landmark :=
  ⟨1, List.replicate 32 48, 1, 1, 9221120237041090560, 0, 4607182418800017408,
    [0, 0, 0],
    [[4607182418800017408, 0, 0], [0, 4607182418800017408, 0],
     [0, 0, 4607182418800017408]], [[7]], [[1065353216]]⟩

set_option maxRecDepth 4000 in
/-- C1 (counterexample): the round-trip claim fails as stated.  `c1RecNaN`
is a valid record in the claim's sense (positive dimensions, 32-byte id,
rasters of shape `(num_rows, num_cols)`, all patterns in range), yet
`load(save(R))` is judged *unequal* to `R` by `equal`, because its
`anchor_col` is NaN and Python's `==` makes `NaN != NaN`. -/
theorem c1_counterexample :
    validForSave c1RecNaN ∧ 0 < c1RecNaN.num_cols ∧ 0 < c1RecNaN.num_rows ∧
    patternsBounded c1RecNaN ∧
    ((Landmark.save c1RecNaN).bind fun bs =>
      (Landmark.load bs).bind fun L2 => Landmark.eq L2 c1RecNaN) =
      Except.ok false := by
  refine ⟨by decide, by decide, by decide, by decide, ?_⟩
  rfl

/-- C1 (amended): for every valid `LandmarkRecord` (positive dimensions,
32-byte id, rasters of shape `(num_rows, num_cols)`, field patterns in
range) **whose floating-point fields contain no NaN**, loading the bytes
produced by `save` yields a record that `equal` judges equal to the
original. -/
theorem c1_roundtrip_amended (L : Landmark) (h1 : validForSave L)
    (_h2 : 0 < L.num_cols) (_h3 : 0 < L.num_rows)
    (h4 : patternsBounded L) (h5 : noNaN L) :
    ∃ bs, Landmark.save L = Except.ok bs ∧
      ∃ L2, Landmark.load bs = Except.ok L2 ∧ Landmark.eq L2 L = Except.ok true :=
  ⟨Landmark.bytes L, save_explicit L h1.1 h1.2,
    L, load_bytes L h1.1 h1.2 h4, eq_refl_noNaN L h5⟩

/-- Witness for C1 at a concrete 1×1 record. -/
theorem c1_roundtrip_witness :
    validForSave c1Rec ∧ 0 < c1Rec.num_cols ∧ 0 < c1Rec.num_rows ∧
    patternsBounded c1Rec ∧ noNaN c1Rec ∧
    (∃ bs, Landmark.save c1Rec = Except.ok bs ∧
      ∃ L2, Landmark.load bs = Except.ok L2 ∧
        Landmark.eq L2 c1Rec = Except.ok true) :=
  ⟨by decide, by decide, by decide, by decide, by decide,
    c1_roundtrip_amended c1Rec (by decide) (by decide) (by decide) (by decide)
      (by decide)⟩

/-- C2 (counterexample): the claim that `unpack_matrix` honours its
byte-order argument fails.  With `little_endian = True` on the 4-byte buffer
`3F 80 00 00`, `unpack_matrix` still decodes big-endian (pattern
`0x3F800000`, i.e. the float 1.0), while true little-endian decoding (as
`unpack_little_endian_matrix` performs) assembles the distinct pattern
`0x0000803F`, a different float value. -/
theorem c2_counterexample :
    unpack_matrix 'f' 1 1 [63, 128, 0, 0] true = Except.ok [[1065353216]] ∧
    unpack_little_endian_matrix 'f' 1 1 [63, 128, 0, 0] = Except.ok [[32831]] ∧
    (1065353216 : Nat) ≠ 32831 ∧
    decode32 1065353216 ≠ decode32 32831 ∧
    decode32 1065353216 = FVal.fin 1 := by
  refine ⟨rfl, rfl, by decide, by decide, by decide⟩

/-- C2 (amended): for every supported element kind, shape and sufficiently
long buffer, `unpack_matrix` ignores its byte-order argument and always
interprets each element's bytes big-endian; little-endian decoding of the
same buffer is what the separate `unpack_little_endian_matrix` computes, and
differs for non-symmetric byte patterns (see the counterexample). -/
theorem c2_unpack_ignores_flag (t : Char) (w : Nat) (hw : b_sizeOf t = Except.ok w)
    (c r : Nat) (buf : List Nat) (le : Bool) (hlen : r * (c * w) ≤ buf.length) :
    unpack_matrix t (c : Int) (r : Int) buf le =
      unpack_matrix t (c : Int) (r : Int) buf false ∧
    unpack_matrix t (c : Int) (r : Int) buf le =
      Except.ok ((List.range r).map fun i =>
        readElems natOfBe w c (buf.drop (i * (c * w)))) ∧
    unpack_little_endian_matrix t (c : Int) (r : Int) buf =
      Except.ok ((List.range r).map fun i =>
        readElems natOfLe w c (buf.drop (i * (c * w)))) :=
  ⟨(unpack_matrix_spec t w hw c r buf le hlen).trans
      (unpack_matrix_spec t w hw c r buf false hlen).symm,
    unpack_matrix_spec t w hw c r buf le hlen,
    unpack_le_matrix_spec t w hw c r buf hlen⟩

/-- Witness for C2 at a concrete buffer. -/
theorem c2_witness :
    1 * (1 * 4) ≤ ([63, 128, 0, 0] : List Nat).length ∧
    unpack_matrix 'f' ((1 : Nat) : Int) ((1 : Nat) : Int) [63, 128, 0, 0] true =
      unpack_matrix 'f' ((1 : Nat) : Int) ((1 : Nat) : Int) [63, 128, 0, 0] false :=
  ⟨by decide,
    (c2_unpack_ignores_flag 'f' 4 rfl 1 1 [63, 128, 0, 0] true (by decide)).1⟩

/-- C3: for every record with a 32-byte id (and the data-model invariants on
field ranges and raster shapes), `save` succeeds and produces exactly
`196 + num_pixels*1 + num_pixels*4` bytes, including when `num_pixels = 0`. -/
theorem c3_size_law (L : Landmark) (h : validForSave L) :
    ∃ bs, Landmark.save L = Except.ok bs ∧
      bs.length = 196 + numPixelsNat L * 1 + numPixelsNat L * 4 := by
  refine ⟨Landmark.bytes L, save_explicit L h.1 h.2, ?_⟩
  have hb := bytes_length L h.1 h.2
  omega

/-- An empty (0×0) record with a 32-byte id. -/
def c3Rec0 : Landmark :=
  ⟨0, List.replicate 32 48, 0, 0, 0, 0, 0, [0, 0, 0],
    [[0, 0, 0], [0, 0, 0], [0, 0, 0]], [], []⟩

/-- Witness for C3 at the `num_pixels = 0` record: the output is exactly
196 bytes. -/
theorem c3_witness :
    validForSave c3Rec0 ∧ numPixelsNat c3Rec0 = 0 ∧
    (∃ bs, Landmark.save c3Rec0 = Except.ok bs ∧
      bs.length = 196 + numPixelsNat c3Rec0 * 1 + numPixelsNat c3Rec0 * 4) :=
  ⟨by decide, by decide, c3_size_law c3Rec0 (by decide)⟩

/-- C5: composing `mapxy2col_row` after `col_row2mapxy` on an arbitrary
pixel `(c, r)` returns `(c, r)` exactly (hence within any floating
tolerance), for every positive resolution. -/
theorem c5_transform_inverse (resolution anchor_col anchor_row c r : ℚ)
    (h : 0 < resolution) :
    applyAffine (mapxy2col_row resolution anchor_col anchor_row)
      (applyAffine (col_row2mapxy resolution anchor_col anchor_row) c r).1
      (applyAffine (col_row2mapxy resolution anchor_col anchor_row) c r).2 =
      (c, r) := by
  have hne : resolution ≠ 0 := ne_of_gt h
  unfold applyAffine col_row2mapxy mapxy2col_row
  simp only [List.getD_cons_zero, List.getD_cons_succ]
  rw [Prod.ext_iff]
  constructor <;> (field_simp; ring)

/-- Witness for C5 at the spec's concrete scenario values. -/
theorem c5_witness :
    (0 : ℚ) < 10 ∧
    applyAffine (mapxy2col_row 10 1 1)
      (applyAffine (col_row2mapxy 10 1 1) 3 4).1
      (applyAffine (col_row2mapxy 10 1 1) 3 4).2 = (3, 4) :=
  ⟨by norm_num, c5_transform_inverse 10 1 1 3 4 (by norm_num)⟩

/-- C6: the legacy export derives `map_normal_vector` as the third column of
`map_r_world` and `map_plane_params` as `[n, -(n · anchor_point)]`, so the
plane residual `n · anchor_point + d` is exactly 0 (hence within absolute
tolerance 1e-6). -/
theorem c6_plane_consistency (mapRworld : List (List ℚ)) (anchor_point : List ℚ) :
    map_normal_vector mapRworld =
      [(mapRworld.getD 0 []).getD 2 0, (mapRworld.getD 1 []).getD 2 0,
        (mapRworld.getD 2 []).getD 2 0] ∧
    (map_plane_params mapRworld anchor_point).getD 3 0 =
      -(dot3 (map_normal_vector mapRworld) anchor_point) ∧
    dot3 (map_normal_vector mapRworld) anchor_point +
      (map_plane_params mapRworld anchor_point).getD 3 0 = 0 ∧
    |dot3 (map_normal_vector mapRworld) anchor_point +
      (map_plane_params mapRworld anchor_point).getD 3 0| ≤ 1 / 1000000 := by
  have h2 : (map_plane_params mapRworld anchor_point).getD 3 0 =
      -(dot3 (map_normal_vector mapRworld) anchor_point) := rfl
  have h3 : dot3 (map_normal_vector mapRworld) anchor_point +
      (map_plane_params mapRworld anchor_point).getD 3 0 = 0 := by
    rw [h2]
    ring
  exact ⟨rfl, h2, h3, by rw [h3]; norm_num⟩

/-- C9: padding always uses ASCII `'0'` (48), never 0: `save` writes the
signature `"#! LVS Map v3.0"` right-padded with `'0'` to 32 bytes at offsets
`[0, 32)`, and the legacy loader synthesises the id as the decimal text of
the numeric id right-padded with `'0'` to 32 bytes. -/
theorem c9_pad_bytes :
    (∀ (L : Landmark) (bs : List Nat), validForSave L →
      Landmark.save L = Except.ok bs →
      bs.take 32 = versionSig ++ List.replicate 17 48 ∧
      ∀ i, 15 ≤ i → i < 32 → bs.getD i 0 = 48) ∧
    (∀ n : Int, -2 ^ 31 ≤ n → n < 2 ^ 31 →
      (synthLegacyId n).length = 32 ∧
      ∀ i, (intDecimalBytes n).length ≤ i → i < 32 →
        (synthLegacyId n).getD i 0 = 48) := by
  constructor
  · intro L bs hv hsave
    rw [save_explicit L hv.1 hv.2] at hsave
    have hbs : bs = Landmark.bytes L := (Except.ok.inj hsave).symm
    subst hbs
    have htake : (Landmark.bytes L).take 32 = versionSig ++ List.replicate 17 48 := by
      unfold Landmark.bytes
      simp only [List.append_assoc]
      rw [← List.append_assoc versionSig]
      exact List.take_left' (by simp [versionSig_length])
    refine ⟨htake, ?_⟩
    intro i h1 h2
    rw [← getD_take_lt _ 32 i 0 h2, htake]
    interval_cases i <;> rfl
  · intro n h1 h2
    have hlen := intDecimalBytes_len n h1 h2
    constructor
    · unfold synthLegacyId
      simp only [List.length_append, List.length_replicate]
      omega
    · intro i hi1 hi2
      unfold synthLegacyId
      rw [List.getD_append_right _ _ _ _ hi1]
      exact getD_replicate_lt _ _ _ _ (by omega)

/-- A concrete 1×1 record for the C9 witness. -/
def c9Rec : Landmark :=
  ⟨0, List.replicate 32 65, 1, 1, 0, 0, 0, [0, 0, 0],
    [[0, 0, 0], [0, 0, 0], [0, 0, 0]], [[3]], [[0]]⟩

/-- Witness for C9: the concrete saved file starts with the padded
signature, and `synthLegacyId 7` is `"7"` padded with `'0'` to 32 bytes. -/
theorem c9_witness :
    (∃ bs, Landmark.save c9Rec = Except.ok bs ∧
      bs.take 32 = versionSig ++ List.replicate 17 48 ∧ bs.getD 20 0 = 48) ∧
    (synthLegacyId 7).length = 32 ∧ (synthLegacyId 7).getD 20 0 = 48 := by
  have hs : Landmark.save c9Rec = Except.ok (Landmark.bytes c9Rec) :=
    save_explicit c9Rec (by decide) (by decide)
  have h1 := (c9_pad_bytes.1 c9Rec (Landmark.bytes c9Rec) (by decide) hs)
  have h2 := c9_pad_bytes.2 7 (by decide) (by decide)
  exact ⟨⟨Landmark.bytes c9Rec, hs, h1.1, h1.2 20 (by decide) (by decide)⟩,
    h2.1, h2.2 20 (by decide) (by decide)⟩

/-- Shapes of the four array fields can be broadcast pairwise (numpy
broadcasting rules); equal shapes are the common special case. -/
def broadcastCompatible (a b : LandmarkV) : Prop :=
  bcastOK a.anchor_point.length b.anchor_point.length = true ∧
  (bcastOK a.mapRworld.length b.mapRworld.length &&
    bcastOK (a.mapRworld.headD []).length (b.mapRworld.headD []).length) = true ∧
  (bcastOK a.srm.length b.srm.length &&
    bcastOK (a.srm.headD []).length (b.srm.headD []).length) = true ∧
  (bcastOK a.ele.length b.ele.length &&
    bcastOK (a.ele.headD []).length (b.ele.headD []).length) = true

instance (a b : LandmarkV) : Decidable (broadcastCompatible a b) := by
  unfold broadcastCompatible
  infer_instance

/-- Records A and B with internally consistent rasters of different widths
(2×2 vs 2×3). -/
def c7RecA : LandmarkV :=
  ⟨0, [48], 2, 2, 0, 0, 1, [0, 0, 0], [[1, 0, 0], [0, 1, 0], [0, 0, 1]],
    [[0, 0], [0, 0]], [[0, 0], [0, 0]]⟩

def c7RecB : LandmarkV :=
  ⟨0, [48], 3, 2, 0, 0, 1, [0, 0, 0], [[1, 0, 0], [0, 1, 0], [0, 0, 1]],
    [[0, 0, 0], [0, 0, 0]], [[0, 0, 0], [0, 0, 0]]⟩

/-- `c7RecA` with one elevation value changed (same shapes). -/
def c7RecC : LandmarkV :=
  ⟨0, [48], 2, 2, 0, 0, 1, [0, 0, 0], [[1, 0, 0], [0, 1, 0], [0, 0, 1]],
    [[0, 0], [0, 0]], [[0, 7], [0, 0]]⟩

/-- C7 (counterexample): `diagnose` *can* raise.  For two records whose
rasters are 2×2 and 2×3 (each internally consistent with its own
`num_cols`/`num_rows`), the equality chain short-circuits at `num_cols`
without error, but the diagnostic branch then calls `np.allclose` on the
2×2 and 2×3 `srm` rasters unconditionally, which raises a broadcast
error. -/
theorem c7_counterexample :
    c7RecA.srm.length = c7RecB.srm.length ∧
    (c7RecA.srm.headD []).length ≠ (c7RecB.srm.headD []).length ∧
    LandmarkV.assess_equality c7RecA c7RecB =
      Except.error "operands could not be broadcast together" := by
  refine ⟨by decide, by decide, ?_⟩
  rfl

/-- C7 (amended): the diagnostic comparison never raises *provided* each
pair of compared array fields (`anchor_point`, `mapRworld`, `srm`, `ele`)
has broadcast-compatible shapes — in particular whenever the two records'
rasters have equal shapes; for non-broadcastable raster shapes the
underlying `np.allclose` raises. -/
theorem c7_no_raise (a b : LandmarkV) (h : broadcastCompatible a b) :
    ∃ r, LandmarkV.assess_equality a b = Except.ok r := by
  obtain ⟨h1, h2, h3, h4⟩ := h
  obtain ⟨v1, e1⟩ := allclose1_isOk 0 (qclose (1/100000) (1/100000000))
    a.anchor_point b.anchor_point h1
  obtain ⟨v2, e2⟩ := allclose2_isOk 0 (qclose 0 (1/10000)) a.mapRworld b.mapRworld h2
  obtain ⟨v3, e3⟩ := allclose2_isOk 0 (qclose (1/100000) (1/100000000)) a.srm b.srm h3
  obtain ⟨v4, e4⟩ := allclose2_isOk 0 (qclose (1/100000) (1/100000000)) a.ele b.ele h4
  have heq : ∃ v, LandmarkV.eq a b = Except.ok v := by
    unfold LandmarkV.eq
    by_cases hcB : a.BODY ≠ b.BODY
    · rw [if_pos hcB]
      exact ⟨_, rfl⟩
    rw [if_neg hcB]
    by_cases hcI : a.lmk_id ≠ b.lmk_id
    · rw [if_pos hcI]
      exact ⟨_, rfl⟩
    rw [if_neg hcI]
    by_cases hcC : a.num_cols ≠ b.num_cols
    · rw [if_pos hcC]
      exact ⟨_, rfl⟩
    rw [if_neg hcC]
    by_cases hcR : a.num_rows ≠ b.num_rows
    · rw [if_pos hcR]
      exact ⟨_, rfl⟩
    rw [if_neg hcR]
    by_cases hcA : a.anchor_col ≠ b.anchor_col
    · rw [if_pos hcA]
      exact ⟨_, rfl⟩
    rw [if_neg hcA]
    by_cases hcA2 : a.anchor_row ≠ b.anchor_row
    · rw [if_pos hcA2]
      exact ⟨_, rfl⟩
    rw [if_neg hcA2]
    by_cases hcRes : a.resolution ≠ b.resolution
    · rw [if_pos hcRes]
      exact ⟨_, rfl⟩
    rw [if_neg hcRes]
    rw [e1, ok_bind]
    by_cases hv1 : ¬ v1 = true
    · rw [if_pos hv1]
      exact ⟨_, rfl⟩
    rw [if_neg hv1, e2, ok_bind]
    by_cases hv2 : ¬ v2 = true
    · rw [if_pos hv2]
      exact ⟨_, rfl⟩
    rw [if_neg hv2, e3, ok_bind]
    by_cases hv3 : ¬ v3 = true
    · rw [if_pos hv3]
      exact ⟨_, rfl⟩
    rw [if_neg hv3, e4, ok_bind]
    exact ⟨_, rfl⟩
  obtain ⟨v, hv⟩ := heq
  unfold LandmarkV.assess_equality
  rw [hv, ok_bind]
  by_cases hvv : v = true
  · rw [if_pos hvv]
    exact ⟨_, rfl⟩
  rw [if_neg hvv]
  rw [e1, ok_bind, e2, ok_bind, e3, ok_bind, e4, ok_bind]
  exact ⟨_, rfl⟩

/-- Witness for C7 on a broadcast-compatible (equal-shape) pair. -/
theorem c7_witness :
    broadcastCompatible c7RecA c7RecC ∧
    ∃ r, LandmarkV.assess_equality c7RecA c7RecC = Except.ok r :=
  ⟨by decide, c7_no_raise c7RecA c7RecC (by decide)⟩

/-- C8: `approx_equal` compares `ele` with absolute tolerance equal to its
`elevation_tolerance` argument (no relative component) and all other fields
exactly as `equal` does; consequently, for records identical in every other
field, `approx_equal(A, B, 0.5)` is true when `max(|A.ele - B.ele|) = 0.5`
and false when it is `0.51`. -/
theorem c8_tolerance_law (A : LandmarkV) (e2 : List (List ℚ))
    (hsh : e2.map List.length = A.ele.map List.length) :
    (maxAbsDiff A.ele e2 = 1/2 →
      LandmarkV.approx_equal A {A with ele := e2} (1/2) = Except.ok true) ∧
    (maxAbsDiff A.ele e2 = 51/100 →
      LandmarkV.approx_equal A {A with ele := e2} (1/2) = Except.ok false) := by
  obtain ⟨B, id, nc, nr, ac, ar, res, ap, mR, srm, ele⟩ := A
  dsimp only at hsh ⊢
  have hcommon : LandmarkV.approx_equal ⟨B, id, nc, nr, ac, ar, res, ap, mR, srm, ele⟩
      ⟨B, id, nc, nr, ac, ar, res, ap, mR, srm, e2⟩ (1/2) =
      Except.ok (decide (∀ x ∈ absDiffGrid ele e2, x ≤ 1/2)) := by
    unfold LandmarkV.approx_equal
    dsimp only
    rw [if_neg (by simp), if_neg (by simp), if_neg (by simp), if_neg (by simp),
      if_neg (by simp), if_neg (by simp), if_neg (by simp)]
    rw [allclose1_self 0 _ ap
      (fun i => qclose_refl _ _ (by norm_num) (by norm_num) _), ok_bind]
    rw [if_neg (by simp)]
    rw [allclose2_self 0 _ mR
      (fun i j => qclose_refl _ _ (by norm_num) (by norm_num) _), ok_bind]
    rw [if_neg (by simp)]
    rw [allclose2_self 0 _ srm
      (fun i j => qclose_refl _ _ (by norm_num) (by norm_num) _), ok_bind]
    rw [if_neg (by simp)]
    rw [allclose2_shape_eq (1/2) ele e2 hsh, ok_bind]
  constructor
  · intro hmax
    rw [hcommon]
    congr 1
    rw [decide_eq_true_eq]
    intro x hx
    calc x ≤ (absDiffGrid ele e2).foldr max 0 := le_foldr_max _ _ hx
      _ = 1/2 := hmax
  · intro hmax
    rw [hcommon]
    congr 1
    rw [decide_eq_false_iff_not]
    intro hall
    rcases foldr_max_attained (absDiffGrid ele e2) with h0 | hmem
    · rw [show maxAbsDiff ele e2 = (absDiffGrid ele e2).foldr max 0 from rfl, h0]
        at hmax
      norm_num at hmax
    · have hle := hall _ hmem
      rw [show (absDiffGrid ele e2).foldr max 0 = maxAbsDiff ele e2 from rfl,
        hmax] at hle
      norm_num at hle

/-- A 1×1 record for the C8 witness. -/
def c8Rec : LandmarkV :=
  ⟨0, [48], 1, 1, 0, 0, 1, [0, 0, 0], [[1, 0, 0], [0, 1, 0], [0, 0, 1]],
    [[0]], [[0]]⟩

/-- Witness for C8: elevation difference exactly 0.5 passes at tolerance
0.5; difference 0.51 fails. -/
theorem c8_witness :
    maxAbsDiff c8Rec.ele [[1/2]] = 1/2 ∧
    maxAbsDiff c8Rec.ele [[51/100]] = 51/100 ∧
    LandmarkV.approx_equal c8Rec {c8Rec with ele := [[1/2]]} (1/2) = Except.ok true ∧
    LandmarkV.approx_equal c8Rec {c8Rec with ele := [[51/100]]} (1/2) =
      Except.ok false := by
  have h1 : maxAbsDiff c8Rec.ele [[1/2]] = 1/2 := by
    simp [maxAbsDiff, absDiffGrid, c8Rec, List.range_succ]
  have h2 : maxAbsDiff c8Rec.ele [[51/100]] = 51/100 := by
    simp [maxAbsDiff, absDiffGrid, c8Rec, List.range_succ]
    norm_num
  exact ⟨h1, h2, (c8_tolerance_law c8Rec [[1/2]] (by decide)).1 h1,
    (c8_tolerance_law c8Rec [[51/100]] (by decide)).2 h2⟩

theorem pySlice_len_eq (buf : List Nat) (a b : Int) (ka kb : Nat)
    (ha : a = (ka : Int)) (hb : b = (kb : Int)) :
    (pySlice buf a b).length = min kb buf.length - min ka buf.length := by
  subst ha hb
  rw [pySlice_nonneg]
  simp only [List.length_drop, List.length_take]
  omega

theorem pySlice_tail_length (buf : List Nat) (a : Int) (k : Nat)
    (ha : a = (k : Int)) :
    (pySlice buf a ((buf.length : Nat) : Int)).length = buf.length - k := by
  subst ha
  rw [pySlice_nonneg]
  simp only [List.length_drop, List.length_take]
  omega

/-- A 196-byte buffer whose header declares `num_cols = num_rows = -1`
(bytes `FF FF FF FF`), so the header-implied size is `196 + 5*((-1)*(-1)) =
201` bytes. -/
def c4Buf : List Nat :=
  List.replicate 64 0 ++ [0, 0, 0, 0] ++ [255, 255, 255, 255] ++
    [255, 255, 255, 255] ++ List.replicate 120 0

set_option maxRecDepth 4000 in
/-- C4 (counterexample): the claim quantifies over *every* buffer shorter
than the header-implied size, but a buffer whose header holds negative
dimensions defeats it: with `num_cols = num_rows = -1` the implied size is
201 bytes, the buffer has 196, yet `load` succeeds (the row loops
`range(num_rows)` are empty), returning a record with empty rasters. -/
theorem c4_counterexample :
    c4Buf.length = 196 ∧
    (c4Buf.length : Int) < 196 + ((-1) * (-1)) * 1 + ((-1) * (-1)) * 4 ∧
    (Landmark.load c4Buf).map (fun L => (L.num_cols, L.num_rows, L.srm, L.ele)) =
      Except.ok (-1, -1, [], []) ∧
    ∃ L, Landmark.load c4Buf = Except.ok L := by
  refine ⟨rfl, by decide, rfl, ⟨_, rfl⟩⟩

/-- C4 (amended): for every buffer whose header-decoded `num_cols` and
`num_rows` are *non-negative*, a successful `load` implies the buffer holds
at least the header-implied `196 + num_pixels*1 + num_pixels*4` bytes;
equivalently, every shorter such buffer makes `load` fail. -/
theorem c4_truncated_fails (buf : List Nat) (L : Landmark)
    (h : Landmark.load buf = Except.ok L)
    (hc : 0 ≤ L.num_cols) (hr : 0 ≤ L.num_rows) :
    196 + numPixelsNat L * 1 + numPixelsNat L * 4 ≤ buf.length := by
  unfold Landmark.load at h
  obtain ⟨⟨B, nc, nr⟩, h1, h⟩ := bind_ok_inv h
  obtain ⟨⟨ac, ar, res⟩, h2, h⟩ := bind_ok_inv h
  obtain ⟨⟨ax, ay, az⟩, h3, h⟩ := bind_ok_inv h
  obtain ⟨mR, h4, h⟩ := bind_ok_inv h
  obtain ⟨srm, h5, h⟩ := bind_ok_inv h
  obtain ⟨ele, h6, h⟩ := bind_ok_inv h
  have hL := Except.ok.inj h
  subst hL
  simp only at hc hr ⊢
  -- header reads force a minimum length of 124
  have k1 := unpackI32x3_ok_len _ _ h1
  rw [pySlice_len_eq buf 64 76 64 76 (by norm_num) (by norm_num)] at k1
  have hlen76 : 76 ≤ buf.length := by omega
  have k3 := unpackF64x3_ok_len _ _ h3
  rw [pySlice_len_eq buf 100 124 100 124 (by norm_num) (by norm_num)] at k3
  have hlen124 : 124 ≤ buf.length := by omega
  -- the 3×3 rotation matrix forces 196 bytes
  have k4 := unpack_matrix_ok_len 'd' 8 rfl 3 3 (by norm_num) _ false mR h4
  rw [pySlice_tail_length buf 124 124 (by norm_num)] at k4
  rw [show ((3:Int).toNat * ((3:Int).toNat * 8)) = 72 from rfl] at k4
  have hlen196 : 196 ≤ buf.length := by omega
  -- the srm raster forces 196 + N bytes
  have k5 := unpack_matrix_ok_len 'B' 1 rfl nc nr hc _ false srm h5
  rw [pySlice_tail_length buf 196 196 (by norm_num)] at k5
  -- the ele raster forces 196 + 5N bytes
  have k6 := unpack_matrix_ok_len 'f' 4 rfl nc nr hc _ false ele h6
  have hofs : (196 + nc * nr * 1 : Int) = ((196 + nc.toNat * nr.toNat : Nat) : Int) := by
    push_cast [Int.toNat_of_nonneg hc, Int.toNat_of_nonneg hr]
    ring
  rw [pySlice_tail_length buf (196 + nc * nr * 1) (196 + nc.toNat * nr.toNat) hofs]
    at k6
  have e5 : nr.toNat * (nc.toNat * 1) = nc.toNat * nr.toNat := by ring
  have e6 : nr.toNat * (nc.toNat * 4) = 4 * (nc.toNat * nr.toNat) := by ring
  rw [e5] at k5
  rw [e6] at k6
  unfold numPixelsNat
  simp only
  omega

/-- The record loaded from a 196-byte all-zero file (0×0 rasters). -/
def c4OkRec : Landmark :=
  ⟨0, List.replicate 32 0, 0, 0, 0, 0, 0, [0, 0, 0],
    [[0, 0, 0], [0, 0, 0], [0, 0, 0]], [], []⟩

set_option maxRecDepth 4000 in
/-- Witness for C4 on a concrete successful load. -/
theorem c4_witness :
    Landmark.load (List.replicate 196 0) = Except.ok c4OkRec ∧
    0 ≤ c4OkRec.num_cols ∧ 0 ≤ c4OkRec.num_rows ∧
    196 + numPixelsNat c4OkRec * 1 + numPixelsNat c4OkRec * 4 ≤
      (List.replicate 196 0 : List Nat).length :=
  ⟨rfl, by decide, by decide,
    c4_truncated_fails (List.replicate 196 0) c4OkRec rfl (by decide) (by decide)⟩

theorem writeAt_take (buf : List Nat) (off : Nat) (bs : List Nat) (k : Nat)
    (hk : k ≤ off) (hoff : off ≤ buf.length) :
    (writeAt buf off bs).take k = buf.take k := by
  unfold writeAt
  rw [List.take_append_of_le_length (by simp; omega),
    List.take_append_of_le_length (by simp; omega), List.take_take,
    Nat.min_eq_left hk]

theorem pySlice_writeAt (buf : List Nat) (off : Nat) (bs : List Nat)
    (hfit : off + bs.length ≤ buf.length) :
    pySlice (writeAt buf off bs) (off : Int) ((off + bs.length : Nat) : Int) = bs := by
  rw [pySlice_eq _ off (off + bs.length)
    (by rw [writeAt_length _ _ _ hfit]; exact hfit)]
  unfold writeAt
  rw [List.take_left' (by simp; omega), List.drop_left' (by simp; omega)]

theorem pySlice_64_76_of_take (b1 b2 : List Nat) (h : b1.take 76 = b2.take 76)
    (h1 : 76 ≤ b1.length) (h2 : 76 ≤ b2.length) :
    pySlice b1 (64 : Int) (76 : Int) = pySlice b2 (64 : Int) (76 : Int) := by
  rw [show (64 : Int) = ((64 : Nat) : Int) from by norm_num,
    show (76 : Int) = ((76 : Nat) : Int) from by norm_num,
    pySlice_eq b1 64 76 h1, pySlice_eq b2 64 76 h2, h]

theorem packSeq_steps (enc : Nat → Except String (List Nat))
    (encF : Nat → List Nat) (w : Nat) (items buf : List Nat) (pos : Nat)
    (henc : ∀ x ∈ items, enc x = Except.ok (encF x) ∧ (encF x).length = w)
    (hfit : pos + items.length * w ≤ buf.length) :
    ∃ buf2, packSeq enc w items buf (pos : Int) = Except.ok buf2 ∧
      buf2.length = buf.length ∧ ∀ k, k ≤ pos → buf2.take k = buf.take k := by
  induction items generalizing buf pos with
  | nil => exact ⟨buf, rfl, rfl, fun k _ => rfl⟩
  | cons x xs ih =>
    obtain ⟨hx, hlen⟩ := henc x (List.mem_cons_self x xs)
    have hfit' : pos + w + xs.length * w ≤ buf.length := by
      rw [List.length_cons, Nat.succ_mul] at hfit
      omega
    rw [packSeq_cons, hx]
    simp only [Except.bind]
    rw [packInto_ok _ _ _ (by rw [hlen]; omega)]
    simp only [Except.bind]
    have hcast : (pos : Int) + (w : Int) = ((pos + w : Nat) : Int) := by
      push_cast
      ring
    rw [hcast]
    obtain ⟨buf2, hrun, hlen2, htake⟩ := ih (writeAt buf pos (encF x)) (pos + w)
      (fun y hy => henc y (List.mem_cons_of_mem x hy))
      (by rw [writeAt_length _ _ _ (by rw [hlen]; omega)]; omega)
    refine ⟨buf2, hrun, ?_, ?_⟩
    · rw [hlen2, writeAt_length _ _ _ (by rw [hlen]; omega)]
    · intro k hk
      rw [htake k (by omega), writeAt_take buf pos (encF x) k hk (by omega)]

theorem packSeq_overflow (enc : Nat → Except String (List Nat))
    (encF : Nat → List Nat) (w : Nat) (items buf : List Nat) (pos : Nat)
    (henc : ∀ x ∈ items, enc x = Except.ok (encF x) ∧ (encF x).length = w)
    (hne : items ≠ []) (hover : buf.length < pos + items.length * w) :
    ∃ e, packSeq enc w items buf (pos : Int) = Except.error e := by
  induction items generalizing buf pos with
  | nil => exact absurd rfl hne
  | cons x xs ih =>
    obtain ⟨hx, hlen⟩ := henc x (List.mem_cons_self x xs)
    rw [packSeq_cons, hx]
    simp only [Except.bind]
    by_cases hfit1 : pos + w ≤ buf.length
    · rw [packInto_ok _ _ _ (by rw [hlen]; omega)]
      simp only [Except.bind]
      have hxs : xs ≠ [] := by
        intro hnil
        rw [hnil] at hover
        simp at hover
        omega
      have hcast : (pos : Int) + (w : Int) = ((pos + w : Nat) : Int) := by
        push_cast
        ring
      rw [hcast]
      exact ih (writeAt buf pos (encF x)) (pos + w)
        (fun y hy => henc y (List.mem_cons_of_mem x hy)) hxs
        (by
          rw [writeAt_length _ _ _ (by rw [hlen]; omega)]
          rw [List.length_cons, Nat.succ_mul] at hover
          omega)
    · rw [packInto_err _ _ _ (by rw [hlen]; omega)]
      exact ⟨_, rfl⟩

theorem packInto_ok' (buf : List Nat) (off : Int) (k : Nat) (bs : List Nat)
    (hoff : off = (k : Int)) (h : k + bs.length ≤ buf.length) :
    packInto buf off bs = Except.ok (writeAt buf k bs) := by
  subst hoff
  exact packInto_ok buf k bs h

theorem packSeq_steps' (enc : Nat → Except String (List Nat))
    (encF : Nat → List Nat) (w : Nat) (items buf : List Nat) (off : Int) (pos : Nat)
    (hoff : off = (pos : Int))
    (henc : ∀ x ∈ items, enc x = Except.ok (encF x) ∧ (encF x).length = w)
    (hfit : pos + items.length * w ≤ buf.length) :
    ∃ buf2, packSeq enc w items buf off = Except.ok buf2 ∧
      buf2.length = buf.length ∧ ∀ k, k ≤ pos → buf2.take k = buf.take k := by
  subst hoff
  exact packSeq_steps enc encF w items buf pos henc hfit

theorem packSeq_overflow' (enc : Nat → Except String (List Nat))
    (encF : Nat → List Nat) (w : Nat) (items buf : List Nat) (off : Int) (pos : Nat)
    (hoff : off = (pos : Int))
    (henc : ∀ x ∈ items, enc x = Except.ok (encF x) ∧ (encF x).length = w)
    (hne : items ≠ []) (hover : buf.length < pos + items.length * w) :
    ∃ e, packSeq enc w items buf off = Except.error e := by
  subst hoff
  exact packSeq_overflow enc encF w items buf pos henc hne hover

theorem pySlice_writeAt' (buf : List Nat) (off : Nat) (bs : List Nat) (a b : Int)
    (ha : a = (off : Int)) (hb : b = ((off + bs.length : Nat) : Int))
    (hfit : off + bs.length ≤ buf.length) :
    pySlice (writeAt buf off bs) a b = bs := by
  subst ha hb
  exact pySlice_writeAt buf off bs hfit

theorem saveBody_short (L : Landmark) (np : Int) (buf2 : List Nat) (N : Nat)
    (hnp : np = (N : Int))
    (hb1 : -2 ^ 31 ≤ L.BODY) (hb2 : L.BODY < 2 ^ 31)
    (hc0 : 0 ≤ L.num_cols) (hc1 : L.num_cols < 2 ^ 31)
    (hr0 : 0 ≤ L.num_rows) (hr1 : L.num_rows < 2 ^ 31)
    (hap : L.anchor_point.length = 3)
    (hmf : L.mapRworld.flatten.length = 9)
    (hsf : L.srm.flatten.length = N)
    (hef : L.ele.flatten.length = N)
    (hsm : ∀ v ∈ L.srm.flatten, v ≤ 255)
    (hlen : buf2.length = 164 + L.lmk_id.length + 5 * N)
    (hshort : L.lmk_id.length < 32) :
    ∃ e, saveBody L np buf2 = Except.error e := by
  have l12 : (i32be L.BODY ++ i32be L.num_cols ++ i32be L.num_rows).length = 12 := by
    simp [i32be_length]
  have l24 : (beB 8 L.anchor_col ++ beB 8 L.anchor_row ++ beB 8 L.resolution).length = 24 := by
    simp [beB_length]
  unfold saveBody
  rw [i32beChecked_ok L.BODY hb1 hb2, i32beChecked_ok L.num_cols (by omega) hc1,
    i32beChecked_ok L.num_rows (by omega) hr1]
  simp only [ok_bind]
  have f1 : 64 + (i32be L.BODY ++ i32be L.num_cols ++ i32be L.num_rows).length ≤
      buf2.length := by
    rw [l12, hlen]
    omega
  rw [packInto_ok' buf2 64 64 _ (by norm_num) f1]
  simp only [ok_bind]
  have hlen3 := writeAt_length _ _ _ f1
  have f2 : 76 + (beB 8 L.anchor_col ++ beB 8 L.anchor_row ++ beB 8 L.resolution).length ≤
      (writeAt buf2 64 (i32be L.BODY ++ i32be L.num_cols ++ i32be L.num_rows)).length := by
    rw [l24, hlen3, hlen]
    omega
  rw [packInto_ok' _ 76 76 _ (by norm_num) f2]
  simp only [ok_bind]
  have hlen4 := writeAt_length _ _ _ f2
  rw [pack_matrix_d1]
  obtain ⟨b5, h5, h5len, h5take⟩ := packSeq_steps' (encElem 'd' false) (beB 8) 8
    L.anchor_point
    (writeAt (writeAt buf2 64 (i32be L.BODY ++ i32be L.num_cols ++ i32be L.num_rows)) 76
      (beB 8 L.anchor_col ++ beB 8 L.anchor_row ++ beB 8 L.resolution))
    (100 : Int) 100 (by norm_num) (fun x _ => ⟨rfl, beB_length 8 x⟩)
    (by rw [hap, hlen4, hlen3, hlen]; omega)
  rw [h5]
  simp only [ok_bind]
  rw [pack_matrix_d2]
  by_cases hA : L.lmk_id.length + 5 * N < 32
  · obtain ⟨e, he⟩ := packSeq_overflow' (encElem 'd' false) (beB 8) 8
      L.mapRworld.flatten b5 (124 : Int) 124 (by norm_num)
      (fun x _ => ⟨rfl, beB_length 8 x⟩)
      (by intro hnil; rw [hnil] at hmf; simp at hmf)
      (by rw [hmf, h5len, hlen4, hlen3, hlen]; omega)
    rw [he]
    exact ⟨e, rfl⟩
  · obtain ⟨b6, h6, h6len, h6take⟩ := packSeq_steps' (encElem 'd' false) (beB 8) 8
      L.mapRworld.flatten b5 (124 : Int) 124 (by norm_num)
      (fun x _ => ⟨rfl, beB_length 8 x⟩)
      (by rw [hmf, h5len, hlen4, hlen3, hlen]; omega)
    rw [h6]
    simp only [ok_bind]
    rw [pack_matrix_B2]
    by_cases hB : L.lmk_id.length + 4 * N < 32
    · obtain ⟨e, he⟩ := packSeq_overflow' (encElem 'B' false) (fun v => [v]) 1
        L.srm.flatten b6 (196 : Int) 196 (by norm_num)
        (fun x hx => ⟨encElem_B false x (hsm x hx), rfl⟩)
        (by intro hnil; rw [hnil] at hsf; simp at hsf; omega)
        (by rw [hsf, h6len, h5len, hlen4, hlen3, hlen]; omega)
      rw [he]
      exact ⟨e, rfl⟩
    · obtain ⟨b7, h7, h7len, h7take⟩ := packSeq_steps' (encElem 'B' false) (fun v => [v]) 1
        L.srm.flatten b6 (196 : Int) 196 (by norm_num)
        (fun x hx => ⟨encElem_B false x (hsm x hx), rfl⟩)
        (by rw [hsf, h6len, h5len, hlen4, hlen3, hlen]; omega)
      rw [h7]
      simp only [ok_bind]
      rw [pack_matrix_f2]
      obtain ⟨e, he⟩ := packSeq_overflow' (encElem 'f' false) (beB 4) 4
        L.ele.flatten b7 (196 + np * 1) (196 + N)
        (by rw [hnp]; push_cast; ring)
        (fun x _ => ⟨rfl, beB_length 4 x⟩)
        (by intro hnil; rw [hnil] at hef; simp at hef; omega)
        (by rw [hef, h7len, h6len, h5len, hlen4, hlen3, hlen]; omega)
      rw [he]
      exact ⟨e, rfl⟩

theorem saveBody_long (L : Landmark) (np : Int) (buf2 : List Nat) (N : Nat)
    (hnp : np = (N : Int))
    (hb1 : -2 ^ 31 ≤ L.BODY) (hb2 : L.BODY < 2 ^ 31)
    (hc0 : 0 ≤ L.num_cols) (hc1 : L.num_cols < 2 ^ 31)
    (hr0 : 0 ≤ L.num_rows) (hr1 : L.num_rows < 2 ^ 31)
    (hap : L.anchor_point.length = 3)
    (hmf : L.mapRworld.flatten.length = 9)
    (hsf : L.srm.flatten.length = N)
    (hef : L.ele.flatten.length = N)
    (hsm : ∀ v ∈ L.srm.flatten, v ≤ 255)
    (hlen : buf2.length = 164 + L.lmk_id.length + 5 * N)
    (hlong : 32 ≤ L.lmk_id.length) :
    ∃ bs, saveBody L np buf2 = Except.ok bs ∧
      bs.length = 164 + L.lmk_id.length + 5 * N ∧
      pySlice bs (64 : Int) (76 : Int) =
        i32be L.BODY ++ i32be L.num_cols ++ i32be L.num_rows := by
  have l12 : (i32be L.BODY ++ i32be L.num_cols ++ i32be L.num_rows).length = 12 := by
    simp [i32be_length]
  have l24 : (beB 8 L.anchor_col ++ beB 8 L.anchor_row ++ beB 8 L.resolution).length = 24 := by
    simp [beB_length]
  unfold saveBody
  rw [i32beChecked_ok L.BODY hb1 hb2, i32beChecked_ok L.num_cols (by omega) hc1,
    i32beChecked_ok L.num_rows (by omega) hr1]
  simp only [ok_bind]
  have f1 : 64 + (i32be L.BODY ++ i32be L.num_cols ++ i32be L.num_rows).length ≤
      buf2.length := by
    rw [l12, hlen]
    omega
  rw [packInto_ok' buf2 64 64 _ (by norm_num) f1]
  simp only [ok_bind]
  have hlen3 := writeAt_length _ _ _ f1
  have f2 : 76 + (beB 8 L.anchor_col ++ beB 8 L.anchor_row ++ beB 8 L.resolution).length ≤
      (writeAt buf2 64 (i32be L.BODY ++ i32be L.num_cols ++ i32be L.num_rows)).length := by
    rw [l24, hlen3, hlen]
    omega
  rw [packInto_ok' _ 76 76 _ (by norm_num) f2]
  simp only [ok_bind]
  have hlen4 := writeAt_length _ _ _ f2
  rw [pack_matrix_d1]
  obtain ⟨b5, h5, h5len, h5take⟩ := packSeq_steps' (encElem 'd' false) (beB 8) 8
    L.anchor_point
    (writeAt (writeAt buf2 64 (i32be L.BODY ++ i32be L.num_cols ++ i32be L.num_rows)) 76
      (beB 8 L.anchor_col ++ beB 8 L.anchor_row ++ beB 8 L.resolution))
    (100 : Int) 100 (by norm_num) (fun x _ => ⟨rfl, beB_length 8 x⟩)
    (by rw [hap, hlen4, hlen3, hlen]; omega)
  rw [h5]
  simp only [ok_bind]
  rw [pack_matrix_d2]
  obtain ⟨b6, h6, h6len, h6take⟩ := packSeq_steps' (encElem 'd' false) (beB 8) 8
    L.mapRworld.flatten b5 (124 : Int) 124 (by norm_num)
    (fun x _ => ⟨rfl, beB_length 8 x⟩)
    (by rw [hmf, h5len, hlen4, hlen3, hlen]; omega)
  rw [h6]
  simp only [ok_bind]
  rw [pack_matrix_B2]
  obtain ⟨b7, h7, h7len, h7take⟩ := packSeq_steps' (encElem 'B' false) (fun v => [v]) 1
    L.srm.flatten b6 (196 : Int) 196 (by norm_num)
    (fun x hx => ⟨encElem_B false x (hsm x hx), rfl⟩)
    (by rw [hsf, h6len, h5len, hlen4, hlen3, hlen]; omega)
  rw [h7]
  simp only [ok_bind]
  rw [pack_matrix_f2]
  obtain ⟨b8, h8, h8len, h8take⟩ := packSeq_steps' (encElem 'f' false) (beB 4) 4
    L.ele.flatten b7 (196 + np * 1) (196 + N)
    (by rw [hnp]; push_cast; ring)
    (fun x _ => ⟨rfl, beB_length 4 x⟩)
    (by rw [hef, h7len, h6len, h5len, hlen4, hlen3, hlen]; omega)
  rw [h8]
  simp only [ok_bind]
  refine ⟨b8, rfl, ?_, ?_⟩
  · rw [h8len, h7len, h6len, h5len, hlen4, hlen3, hlen]
  · have htake : b8.take 76 =
        (writeAt buf2 64 (i32be L.BODY ++ i32be L.num_cols ++ i32be L.num_rows)).take 76 := by
      rw [h8take 76 (by omega), h7take 76 (by omega), h6take 76 (by omega),
        h5take 76 (by omega),
        writeAt_take _ 76 _ 76 (le_refl 76) (by rw [l24] at f2; omega)]
    rw [pySlice_64_76_of_take b8
      (writeAt buf2 64 (i32be L.BODY ++ i32be L.num_cols ++ i32be L.num_rows)) htake
      (by rw [h8len, h7len, h6len, h5len, hlen4, hlen3, hlen]; omega)
      (by rw [hlen3, hlen]; omega)]
    exact pySlice_writeAt' buf2 64 _ 64 76 (by norm_num) (by rw [l12]; norm_num) f1

/-- C10: `save` is well-defined only for 32-byte ids.  For every record with
the data-model field invariants: (a) if `lmk_id` is shorter than 32 bytes the
slice assignment shrinks the buffer and `save` fails (with the pack_into
buffer-too-small error on a subsequent fixed-offset write); (b) if `lmk_id`
is longer than 32 bytes `save` succeeds but the output is larger than
`196 + 5*num_pixels` bytes (by the id excess) and the id bytes at offsets
`[64, 76)` are overwritten by the three big-endian int32 header fields
`BODY`, `num_cols`, `num_rows`. -/
theorem c10_id_slice (L : Landmark) (hv : validFields L) :
    (L.lmk_id.length < 32 → ∃ e, Landmark.save L = Except.error e) ∧
    (32 < L.lmk_id.length → ∃ bs, Landmark.save L = Except.ok bs ∧
      196 + 5 * numPixelsNat L < bs.length ∧
      bs.length = 164 + L.lmk_id.length + 5 * numPixelsNat L ∧
      pySlice bs (64 : Int) (76 : Int) =
        i32be L.BODY ++ i32be L.num_cols ++ i32be L.num_rows) := by
  obtain ⟨hc0, hr0, hb1, hb2, hc1, hr1, hap, hmw, hsw, hsv, hew⟩ := hv
  have hN : L.num_cols * L.num_rows = ((numPixelsNat L : Nat) : Int) := by
    unfold numPixelsNat
    push_cast [Int.toNat_of_nonneg hc0, Int.toNat_of_nonneg hr0]
    ring
  set N := numPixelsNat L with hNdef
  have hV : (versionSig ++ List.replicate 17 48).length = 32 := by
    simp [versionSig_length]
  have lmf : L.mapRworld.flatten.length = 9 := by
    rw [flatten_length_wellShaped _ 3 3 hmw]
  have lsf : L.srm.flatten.length = N := by
    rw [flatten_length_wellShaped _ _ _ hsw]
    exact Nat.mul_comm _ _
  have lef : L.ele.flatten.length = N := by
    rw [flatten_length_wellShaped _ _ _ hew]
    exact Nat.mul_comm _ _
  have hsv' : ∀ v ∈ L.srm.flatten, v ≤ 255 := by
    intro v hvm
    obtain ⟨row, hrow, hvr⟩ := List.mem_flatten.mp hvm
    exact hsv row hrow v hvr
  have htoNat : (196 + L.num_cols * L.num_rows * 1 + L.num_cols * L.num_rows * 4).toNat
      = 196 + 5 * N := by
    rw [hN]
    omega
  have hbl : ((versionSig ++ List.replicate 17 48) ++ L.lmk_id ++
      List.replicate (196 + 5 * N - 32 - 32) 0).length
      = 164 + L.lmk_id.length + 5 * N := by
    simp [versionSig_length]
    omega
  constructor
  · intro hshort
    unfold Landmark.save
    rw [if_neg (by rw [hN]; omega)]
    simp only []
    rw [htoNat, show 32 - versionSig.length = 17 from rfl]
    rw [pySliceAssign_rep0 (196 + 5 * N) 32 _ (by omega)]
    rw [pySliceAssign_mid _ _ _ hV (by omega)]
    exact saveBody_short L _ _ N hN hb1 hb2 hc0 hc1 hr0 hr1 hap lmf lsf lef hsv'
      hbl hshort
  · intro hlong
    unfold Landmark.save
    rw [if_neg (by rw [hN]; omega)]
    simp only []
    rw [htoNat, show 32 - versionSig.length = 17 from rfl]
    rw [pySliceAssign_rep0 (196 + 5 * N) 32 _ (by omega)]
    rw [pySliceAssign_mid _ _ _ hV (by omega)]
    obtain ⟨bs, hrun, hblen, hslice⟩ := saveBody_long L (L.num_cols * L.num_rows)
      ((versionSig ++ List.replicate 17 48) ++ L.lmk_id ++
        List.replicate (196 + 5 * N - 32 - 32) 0) N hN hb1 hb2 hc0 hc1 hr0 hr1
      hap lmf lsf lef hsv' hbl (by omega)
    rw [hrun]
    exact ⟨bs, rfl, by rw [hblen]; omega, hblen, hslice⟩

/-- A valid record whose id has 31 bytes (one short). -/
def c10RecShort : Landmark :=
  ⟨1, List.replicate 31 48, 1, 1, 0, 0, 4607182418800017408, [0, 0, 0],
    [[4607182418800017408, 0, 0], [0, 4607182418800017408, 0],
     [0, 0, 4607182418800017408]], [[7]], [[1065353216]]⟩

/-- A valid record whose id has 33 bytes (one long). -/
def c10RecLong : Landmark :=
  ⟨1, List.replicate 33 48, 1, 1, 0, 0, 4607182418800017408, [0, 0, 0],
    [[4607182418800017408, 0, 0], [0, 4607182418800017408, 0],
     [0, 0, 4607182418800017408]], [[7]], [[1065353216]]⟩

/-- Witness for C10 at two concrete 1×1 records with 31- and 33-byte ids. -/
theorem c10_witness :
    (∃ e, Landmark.save c10RecShort = Except.error e) ∧
    (∃ bs, Landmark.save c10RecLong = Except.ok bs ∧
      196 + 5 * numPixelsNat c10RecLong < bs.length ∧
      bs.length = 164 + c10RecLong.lmk_id.length + 5 * numPixelsNat c10RecLong ∧
      pySlice bs (64 : Int) (76 : Int) =
        i32be c10RecLong.BODY ++ i32be c10RecLong.num_cols ++
          i32be c10RecLong.num_rows) :=
  ⟨(c10_id_slice c10RecShort (by decide)).1 (by decide),
   (c10_id_slice c10RecLong (by decide)).2 (by decide)⟩
